import Mathlib

/-
Verification of the geometric core of the GameEngine software renderer.

The development shallowly embeds the Rust sources of the engine:
`f32` arithmetic is modelled by exact real arithmetic (ℝ), Rust `Option`
by Lean `Option`, and a Rust panic by an outer `Option` layer (`none`
models the panic).  Struct and function names follow the source files
(`src/primitives/vector.rs`, `src/primitives/matrix3.rs`,
`src/primitives/cubic_face3.rs`, `src/primitives/camera.rs`,
`src/bsp/cubic_face_split.rs`, `src/primitives/cubic_face_split.rs`,
`src/bsp/tree.rs`).  A few items called by those files are not part of
the source tree (`Vector3::cross`, `Matrix3::linear_solve`, the
in-front flag of `Point2`); these are modelled from the specification
and marked as such in their doc comments.
-/

noncomputable section

namespace GameEngine

/-- Screen width in pixels (`WIDTH` in `main.rs`). -/
def WIDTH : ℕ := 480

/-- Screen height in pixels (`HEIGHT` in `main.rs`). -/
def HEIGHT : ℕ := 320

/-- A vector in 3 coordinates (`Vector3` in `src/primitives/vector.rs`). -/
structure Vector3 where
  x : ℝ
  y : ℝ
  z : ℝ

namespace Vector3

/-- `Vector3::empty`. -/
def empty : Vector3 := ⟨0, 0, 0⟩

/-- `Vector3::line_to`: the vector going from `self` to `other`. -/
def line_to (self other : Vector3) : Vector3 :=
  ⟨other.x - self.x, other.y - self.y, other.z - self.z⟩

/-- `Vector3::dot`. -/
def dot (self vec : Vector3) : ℝ :=
  self.x * vec.x + self.y * vec.y + self.z * vec.z

/-- `Vector3::opposite`. -/
def opposite (self : Vector3) : Vector3 := ⟨-self.x, -self.y, -self.z⟩

/-- `Vector3::clockwise`: rotation of 90 degrees clockwise around the z-axis. -/
def clockwise (self : Vector3) : Vector3 := ⟨self.y, -self.x, self.z⟩

/-- `Vector3::anticlockwise`. -/
def anticlockwise (self : Vector3) : Vector3 := ⟨-self.y, self.x, self.z⟩

/-- `Vector3::norm`. -/
def norm (self : Vector3) : ℝ :=
  Real.sqrt (self.x * self.x + self.y * self.y + self.z * self.z)

/-- `Vector3::normalize` (the in-place mutation, modelled functionally). -/
def normalize (self : Vector3) : Vector3 :=
  ⟨self.x / self.norm, self.y / self.norm, self.z / self.norm⟩

/-- Modelled from the spec: `Vector3` "supports add/sub/scale, dot, cross,
norm" (§3); the implementation of the cross product is not under `src/`,
only its caller `CubicFace3::area`.  Standard right-handed cross product. -/
def cross (self vec : Vector3) : Vector3 :=
  ⟨self.y * vec.z - self.z * vec.y,
   self.z * vec.x - self.x * vec.z,
   self.x * vec.y - self.y * vec.x⟩

end Vector3

instance : Add Vector3 :=
  ⟨fun a b => ⟨a.x + b.x, a.y + b.y, a.z + b.z⟩⟩

instance : Sub Vector3 :=
  ⟨fun a b => ⟨a.x - b.x, a.y - b.y, a.z - b.z⟩⟩

/-- `impl Mul<f32> for Vector3`. -/
instance : HMul Vector3 ℝ Vector3 :=
  ⟨fun v s => ⟨v.x * s, v.y * s, v.z * s⟩⟩

/-- `impl Div<f32> for Vector3`. -/
instance : HDiv Vector3 ℝ Vector3 :=
  ⟨fun v s => ⟨v.x / s, v.y / s, v.z / s⟩⟩

theorem Vector3.add_def (a b : Vector3) :
    a + b = ⟨a.x + b.x, a.y + b.y, a.z + b.z⟩ := rfl

theorem Vector3.sub_def (a b : Vector3) :
    a - b = ⟨a.x - b.x, a.y - b.y, a.z - b.z⟩ := rfl

theorem Vector3.mul_def (a : Vector3) (s : ℝ) :
    a * s = ⟨a.x * s, a.y * s, a.z * s⟩ := rfl

theorem Vector3.div_def (a : Vector3) (s : ℝ) :
    a / s = ⟨a.x / s, a.y / s, a.z / s⟩ := rfl

theorem Vector3.add_x (a b : Vector3) : (a + b).x = a.x + b.x := rfl

theorem Vector3.add_y (a b : Vector3) : (a + b).y = a.y + b.y := rfl

theorem Vector3.add_z (a b : Vector3) : (a + b).z = a.z + b.z := rfl

theorem Vector3.sub_x (a b : Vector3) : (a - b).x = a.x - b.x := rfl

theorem Vector3.sub_y (a b : Vector3) : (a - b).y = a.y - b.y := rfl

theorem Vector3.sub_z (a b : Vector3) : (a - b).z = a.z - b.z := rfl

theorem Vector3.mul_x (a : Vector3) (s : ℝ) : (a * s).x = a.x * s := rfl

theorem Vector3.mul_y (a : Vector3) (s : ℝ) : (a * s).y = a.y * s := rfl

theorem Vector3.mul_z (a : Vector3) (s : ℝ) : (a * s).z = a.z * s := rfl

theorem Vector3.div_x (a : Vector3) (s : ℝ) : (a / s).x = a.x / s := rfl

theorem Vector3.div_y (a : Vector3) (s : ℝ) : (a / s).y = a.y / s := rfl

theorem Vector3.div_z (a : Vector3) (s : ℝ) : (a / s).z = a.z / s := rfl

/-- A 3x3 matrix (`Matrix3` in `src/primitives/matrix3.rs`). -/
structure Matrix3 where
  a11 : ℝ
  a12 : ℝ
  a13 : ℝ
  a21 : ℝ
  a22 : ℝ
  a23 : ℝ
  a31 : ℝ
  a32 : ℝ
  a33 : ℝ

namespace Matrix3

/-- `Matrix3::new` (row major, as in the source). -/
def new (a11 a12 a13 a21 a22 a23 a31 a32 a33 : ℝ) : Matrix3 :=
  ⟨a11, a12, a13, a21, a22, a23, a31, a32, a33⟩

/-- `Matrix3::z_rotation`. -/
def z_rotation (theta_z : ℝ) : Matrix3 :=
  ⟨Real.cos theta_z, -Real.sin theta_z, 0,
   Real.sin theta_z, Real.cos theta_z, 0,
   0, 0, 1⟩

/-- Determinant of the matrix, used by the modelled `linear_solve`. -/
def det (m : Matrix3) : ℝ :=
  m.a11 * (m.a22 * m.a33 - m.a23 * m.a32)
    - m.a12 * (m.a21 * m.a33 - m.a23 * m.a31)
    + m.a13 * (m.a21 * m.a32 - m.a22 * m.a31)

/-- Modelled from the spec: `Matrix3` provides "a linear-system solve
(Cramer's-rule style inversion) used for projection math" (§3) which is
degenerate-safe: "if the determinant is (numerically) zero, it must
return no solution rather than dividing by zero" (§4.1).  The
implementation is not under `src/`; only its caller
`CubicFace3::line_projection` is.  Cramer's rule: each component is the
determinant of the matrix with the corresponding column replaced by the
right-hand side, divided by the determinant. -/
def linear_solve (m : Matrix3) (b : Vector3) : Option Vector3 :=
  if m.det = 0 then none
  else
    some
      ⟨(Matrix3.new b.x m.a12 m.a13 b.y m.a22 m.a23 b.z m.a32 m.a33).det / m.det,
       (Matrix3.new m.a11 b.x m.a13 m.a21 b.y m.a23 m.a31 b.z m.a33).det / m.det,
       (Matrix3.new m.a11 m.a12 b.x m.a21 m.a22 b.y m.a31 m.a32 b.z).det / m.det⟩

end Matrix3

/-- `impl Mul<Vector3> for Matrix3`. -/
instance : HMul Matrix3 Vector3 Vector3 :=
  ⟨fun m v =>
    ⟨m.a11 * v.x + m.a12 * v.y + m.a13 * v.z,
     m.a21 * v.x + m.a22 * v.y + m.a23 * v.z,
     m.a31 * v.x + m.a32 * v.y + m.a33 * v.z⟩⟩

theorem Matrix3.mul_vec_def (m : Matrix3) (v : Vector3) :
    m * v =
      ⟨m.a11 * v.x + m.a12 * v.y + m.a13 * v.z,
       m.a21 * v.x + m.a22 * v.y + m.a23 * v.z,
       m.a31 * v.x + m.a32 * v.y + m.a33 * v.z⟩ := rfl

/-- A texture reference.  The `Texture` trait object (`&'static dyn Texture`)
is opaque to the geometric core; it is modelled as an identifier that the
splitting code copies around. -/
def Texture : Type := ℕ

/-- The `YELLOW` colored texture used by the face constructors. -/
def YELLOW : Texture := (0 : ℕ)

/-- Projected local coordinates
(`src/primitives/projective_coordinates.rs`). -/
structure ProjectionCoordinates where
  alpha : ℝ
  beta : ℝ

/-- `ProjectionCoordinates::new`. -/
def ProjectionCoordinates.new (alpha beta : ℝ) : ProjectionCoordinates :=
  ⟨alpha, beta⟩

/-- Modelled from the spec: a 2D screen point.  The `x`/`y` fields are
in `src/primitives/point.rs`, but the in-front flag is missing from
`src/`: "a companion boolean flag records whether the point was
actually in front" (§4.2) — only its callers (`Camera::project`,
`Camera::is_point_visible`) are in the sources. -/
structure Point2 where
  x : ℝ
  y : ℝ
  in_front : Bool

/-- Modelled from the spec: `Point2::new_with_direction`, the constructor
used by `Camera::project` that carries the in-front flag. -/
def Point2.new_with_direction (x y : ℝ) (d : Bool) : Point2 := ⟨x, y, d⟩

/-- A pose: position plus rotation about the z-axis
(`src/primitives/position.rs`). -/
structure Pose where
  pos : Vector3
  rotz : ℝ

/-- A camera: pose plus intrinsics (`src/primitives/camera.rs`). -/
structure Camera where
  pose : Pose
  f : ℝ
  px : ℝ
  py : ℝ

/-- A homogeneous transform (`src/primitives/transformation.rs`). -/
structure Transform where
  translation : Vector3
  rotation : Matrix3

/-- `Transform::apply`. -/
def Transform.apply (t : Transform) (vec : Vector3) : Vector3 :=
  t.rotation * (vec + t.translation)

namespace Camera

/-- `Camera::default`. -/
def default : Camera :=
  ⟨⟨Vector3.empty, 0⟩, 100, (WIDTH : ℝ) / 2, (HEIGHT : ℝ) / 2⟩

/-- `Camera::get_transform_world_to_cam`. -/
def get_transform_world_to_cam (c : Camera) : Transform :=
  ⟨c.pose.pos.opposite, Matrix3.z_rotation c.pose.rotz⟩

/-- `Camera::get_rotation_cam_to_world`. -/
def get_rotation_cam_to_world (c : Camera) : Matrix3 :=
  Matrix3.z_rotation (-c.pose.rotz)

/-- `Camera::project`: world point to pixel coordinates, with the
absolute value of the camera-frame depth in the denominator and the
in-front flag recording its sign. -/
def project (cam : Camera) (point : Vector3) : Point2 :=
  let transform := cam.get_transform_world_to_cam
  let point_in_cam_frame := transform.apply point
  Point2.new_with_direction
    (cam.f * point_in_cam_frame.y / |point_in_cam_frame.x| + cam.px)
    (cam.f * point_in_cam_frame.z / |point_in_cam_frame.x| + cam.py)
    (decide (point_in_cam_frame.x > 0))

/-- `Camera::ray_direction`.  The pixel coordinates are `i16` in the
source, modelled as ℤ. -/
def ray_direction (cam : Camera) (u v : ℤ) : Vector3 :=
  cam.get_rotation_cam_to_world *
    (⟨1, ((u : ℝ) - cam.px) / cam.f, ((v : ℝ) - cam.py) / cam.f⟩ : Vector3)

/-- `Camera::is_point_visible`, exactly as written in the source
(including the disjunctions and the `HEIGHT`/`WIDTH` comparisons). -/
def is_point_visible (cam : Camera) (point : Vector3) : Bool :=
  let uv := cam.project point
  uv.in_front
    && (decide (uv.x ≥ 0) || decide (uv.x < (HEIGHT : ℝ)))
    && (decide (uv.y ≥ 0) || decide (uv.y < (WIDTH : ℝ)))

end Camera

/-- An oriented rectangle in space (`src/primitives/cubic_face3.rs`).
The `points` array is modelled as a function from `Fin 4`. -/
structure CubicFace3 where
  points : Fin 4 → Vector3
  normal : Vector3
  texture : Texture

namespace CubicFace3

/-- `CubicFace3::new`. -/
def new (points : Fin 4 → Vector3) (normal : Vector3) (texture : Texture) :
    CubicFace3 :=
  ⟨points, normal, texture⟩

/-- `CubicFace3::center`. -/
def center (f : CubicFace3) : Vector3 :=
  (f.points 0 + f.points 1 + f.points 2 + f.points 3) / (4 : ℝ)

/-- `CubicFace3::area`. -/
def area (f : CubicFace3) : ℝ :=
  ((f.points 1 - f.points 0).cross (f.points 3 - f.points 0)).norm

/-- `CubicFace3::get_projective_base`: the axes `a`, `b` and the anchor
`P` used by the intersection routines. -/
def get_projective_base (f : CubicFace3) : Vector3 × Vector3 × Vector3 :=
  (f.points 1 - f.points 0, f.points 3 - f.points 0, f.points 0)

/-- The matrix assembled inside `CubicFace3::line_projection`. -/
def lp_matrix (f : CubicFace3) (direction : Vector3) : Matrix3 :=
  Matrix3.new
    (f.points 1 - f.points 0).x (f.points 3 - f.points 0).x (-direction.x)
    (f.points 1 - f.points 0).y (f.points 3 - f.points 0).y (-direction.y)
    (f.points 1 - f.points 0).z (f.points 3 - f.points 0).z (-direction.z)

/-- `CubicFace3::line_projection`: solves `C + t·v = P + alpha·a + beta·b`
and returns the fixed-point distance (millimeters, truncated to an
unsigned integer) together with the projection coordinates, or `none`
when the solve fails or `t` is negative. -/
def line_projection (f : CubicFace3) (c direction : Vector3) :
    Option (ℕ × ProjectionCoordinates) :=
  let rhs := c - f.points 0
  match (f.lp_matrix direction).linear_solve rhs with
  | some solution =>
      if solution.z ≥ 0 then
        some (⌊solution.z * direction.norm * 1000⌋₊,
          ProjectionCoordinates.new solution.x solution.y)
      else none
  | none => none

/-- `CubicFace3::line_intersection`: intersection of the line from `p1`
to `p2` (direction normalized) with the plane spanned by the face. -/
def line_intersection (f : CubicFace3) (p1 p2 : Vector3) : Option Vector3 :=
  let dir := (p1.line_to p2).normalize
  match f.line_projection p1 dir with
  | some (_, projection) =>
      some (f.points 0 + (f.points 1 - f.points 0) * projection.alpha
        + (f.points 3 - f.points 0) * projection.beta)
  | none => none

/-- `CubicFace3::is_visible_from`: backface test plus at least one
vertex projecting inside the view. -/
def is_visible_from (f : CubicFace3) (camera : Camera) : Bool :=
  let cam_to_center := f.center - camera.pose.pos
  decide (f.normal.dot cam_to_center < 0)
    && (List.finRange 4).any fun i => camera.is_point_visible (f.points i)

end CubicFace3

/-- `CubicFace3::projection` produces a `CubicFace2`
(`src/primitives/cubic_face2.rs`): the four projected screen points, a
back reference to the 3D face, the cached side lengths and the camera. -/
structure CubicFace2 where
  points : Fin 4 → Point2
  face3 : Option CubicFace3
  norm_a : ℝ
  norm_b : ℝ
  camera : Camera

/-- `CubicFace2::new`. -/
def CubicFace2.new (points2d : Fin 4 → Point2) (face : CubicFace3)
    (camera : Camera) : CubicFace2 :=
  ⟨points2d, some face,
   (face.points 1 - face.points 0).norm,
   (face.points 3 - face.points 0).norm, camera⟩

/-- `CubicFace3::projection`. -/
def CubicFace3.projection (f : CubicFace3) (camera : Camera) : CubicFace2 :=
  CubicFace2.new (fun i => camera.project (f.points i)) f camera

namespace Bsp

/-- `point_in_front_of` in `src/bsp/cubic_face_split.rs` (the variant
imported by the BSP tree): in front iff the dot product of the
point-to-center vector with the stored normal is strictly negative. -/
def point_in_front_of (face : CubicFace3) (point : Vector3) : Bool :=
  let to_center := point.line_to face.center
  decide (to_center.dot face.normal < 0)

/-- The count `n_in_front` computed at the top of `bsp_polygon_split`
(`points.iter().filter(point_in_front_of).count()`). -/
def n_in_front (to_split face : CubicFace3) : ℕ :=
  ((List.finRange 4).filter fun i =>
    point_in_front_of face (to_split.points i)).length

/-- `bsp_polygon_split` in `src/bsp/cubic_face_split.rs`.  The outer
`Option` models a panic: the `_` match arm for an unsupported in-front
count, and the `unwrap` of `line_intersection`. -/
def bsp_polygon_split (to_split face : CubicFace3) :
    Option (Option CubicFace3 × Option CubicFace3) :=
  let points := to_split.points
  match n_in_front to_split face with
  | 0 => some (none, some to_split)
  | 2 =>
    let in_fronts := fun i : Fin 4 => point_in_front_of face (points i)
    if in_fronts 0 ≠ in_fronts 1 then
      -- SplitMode::AfterFirst
      match face.line_intersection (points 0) (points 1),
            face.line_intersection (points 2) (points 3) with
      | some x, some y =>
          some
            (some (CubicFace3.new ![points 0, x, y, points 3]
              to_split.normal to_split.texture),
             some (CubicFace3.new ![x, points 1, points 2, y]
              to_split.normal to_split.texture))
      | _, _ => none
    else
      -- SplitMode::AfterSecond
      match face.line_intersection (points 1) (points 2),
            face.line_intersection (points 3) (points 0) with
      | some x, some y =>
          some
            (some (CubicFace3.new ![points 0, points 1, x, y]
              to_split.normal to_split.texture),
             some (CubicFace3.new ![y, x, points 2, points 3]
              to_split.normal to_split.texture))
      | _, _ => none
  | 4 => some (some to_split, none)
  | _ => none

end Bsp

namespace Prim

/-- `point_in_front_of` in `src/primitives/cubic_face_split.rs` (the
older snapshot): in front iff the dot product of the point-to-center
vector with the stored normal is strictly positive. -/
def point_in_front_of (face : CubicFace3) (point : Vector3) : Bool :=
  let to_center := point.line_to face.center
  decide (to_center.dot face.normal > 0)

/-- The `n_in_front` count of the `src/primitives/cubic_face_split.rs`
variant. -/
def n_in_front (to_split face : CubicFace3) : ℕ :=
  ((List.finRange 4).filter fun i =>
    point_in_front_of face (to_split.points i)).length

/-- `bsp_polygon_split` in `src/primitives/cubic_face_split.rs`.  Note
that the all-behind and all-in-front branches return a clone of `face`
(the splitting plane), exactly as the source does. -/
def bsp_polygon_split (to_split face : CubicFace3) :
    Option (Option CubicFace3 × Option CubicFace3) :=
  let points := to_split.points
  match n_in_front to_split face with
  | 0 => some (none, some face)
  | 2 =>
    let in_fronts := fun i : Fin 4 => point_in_front_of face (points i)
    if in_fronts 0 ≠ in_fronts 1 then
      -- SplitMode::AfterFirst
      match face.line_intersection (points 0) (points 1),
            face.line_intersection (points 2) (points 3) with
      | some x, some y =>
          some
            (some (CubicFace3.new ![points 0, x, y, points 3]
              to_split.normal to_split.texture),
             some (CubicFace3.new ![x, points 1, points 2, y]
              to_split.normal to_split.texture))
      | _, _ => none
    else
      -- SplitMode::AfterSecond
      match face.line_intersection (points 1) (points 2),
            face.line_intersection (points 3) (points 0) with
      | some x, some y =>
          some
            (some (CubicFace3.new ![points 0, points 1, x, y]
              to_split.normal to_split.texture),
             some (CubicFace3.new ![y, x, points 2, points 3]
              to_split.normal to_split.texture))
      | _, _ => none
  | 4 => some (some face, none)
  | _ => none

end Prim

/-- A node of the BSP tree (`BSPNode` in `src/bsp/tree.rs`).  The
source stores a `faces` vector of which only the first element (the
splitting plane) is ever pushed and read, plus the two optional owned
children; the transient `to_process` list exists only during
construction and is modelled by the argument of
`recursive_construction`. -/
inductive BSPNode where
  | node (face : CubicFace3) (in_front : Option BSPNode)
      (behind : Option BSPNode)

namespace BSPNode

/-- `BSPNode::get_plane` (`self.faces[0]`). -/
def get_plane : BSPNode → CubicFace3
  | node f _ _ => f

/-- Accessor for the `in_front` child. -/
def in_front : BSPNode → Option BSPNode
  | node _ i _ => i

/-- Accessor for the `behind` child. -/
def behind : BSPNode → Option BSPNode
  | node _ _ b => b

/-- `BSPNode::render`: draw the node's plane on the frame if it passes
the 3D visibility test.  The abstract frame (`drawer`) is modelled as
the list of faces drawn so far, in drawing order. -/
def render (n : BSPNode) (camera : Camera) (drawer : List CubicFace2) :
    List CubicFace2 :=
  let face3d := n.get_plane
  if face3d.is_visible_from camera then
    drawer ++ [face3d.projection camera]
  else drawer

/-- `BSPNode::painter_algorithm_traversal`: paint back to front
relative to the camera position. -/
def painter_algorithm_traversal (n : BSPNode) (camera : Camera)
    (drawer : List CubicFace2) : List CubicFace2 :=
  match n with
  | node plane inf beh =>
    if Bsp.point_in_front_of plane camera.pose.pos then
      -- draw in the following order: behind, current, in-fronts
      let d1 := match beh with
        | some t => t.painter_algorithm_traversal camera drawer
        | none => drawer
      let d2 := (node plane inf beh).render camera d1
      match inf with
      | some t => t.painter_algorithm_traversal camera d2
      | none => d2
    else
      -- draw in the following order: in-fronts, current, behind
      let d1 := match inf with
        | some t => t.painter_algorithm_traversal camera drawer
        | none => drawer
      let d2 := (node plane inf beh).render camera d1
      match beh with
      | some t => t.painter_algorithm_traversal camera d2
      | none => d2

end BSPNode

/-- The loop body of `recursive_construction` (`src/bsp/tree.rs`,
`for i in 1..node.to_process.len()`): split every face of the list
against the node's plane and route the fragments into the `in_fronts`
and `behinds` lists.  `none` models a panic, either inside
`bsp_polygon_split` or in the `(_, _)` match arm of the loop. -/
def split_faces (plane : CubicFace3) :
    List CubicFace3 → Option (List CubicFace3 × List CubicFace3)
  | [] => some ([], [])
  | f :: rest =>
    match Bsp.bsp_polygon_split f plane with
    | none => none
    | some (none, none) => none
    | some (of, ob) =>
      match split_faces plane rest with
      | none => none
      | some (in_fronts, behinds) =>
          some (match of with | some x => x :: in_fronts | none => in_fronts,
                match ob with | some x => x :: behinds | none => behinds)

/-- Each face of the list contributes at most one fragment to each of
the two lists produced by `split_faces`. -/
theorem split_faces_length_le (plane : CubicFace3) :
    ∀ (l : List CubicFace3) (fr bh : List CubicFace3),
      split_faces plane l = some (fr, bh) →
      fr.length ≤ l.length ∧ bh.length ≤ l.length := by
  intro l
  induction l with
  | nil =>
    intro fr bh h
    simp [split_faces] at h
    obtain ⟨h1, h2⟩ := h
    subst h1; subst h2
    simp
  | cons f rest ih =>
    intro fr bh h
    simp only [split_faces] at h
    rcases hs : Bsp.bsp_polygon_split f plane with _ | ⟨of, ob⟩
    · rw [hs] at h; exact absurd h (by simp)
    · rw [hs] at h
      rcases hof : of with _ | x <;> rcases hob : ob with _ | y <;>
        subst hof <;> subst hob
      · exact absurd h (by simp)
      all_goals
        rcases hrec : split_faces plane rest with _ | ⟨fr', bh'⟩
        · rw [hrec] at h; exact absurd h (by simp)
        · rw [hrec] at h
          have hih := ih fr' bh' hrec
          simp only [Option.some.injEq, Prod.mk.injEq] at h
          constructor
          · rw [← h.1]; simp; omega
          · rw [← h.2]; simp; omega

/-- `recursive_construction` in `src/bsp/tree.rs`: pick the first face
of the to-process list as the node's plane, split the remaining faces,
and recurse on each non-empty fragment list.  The `[]` case models the
out-of-bounds panic of `node.to_process[0]`; `none` results of the
recursion propagate child panics. -/
def recursive_construction : List CubicFace3 → Option BSPNode
  | [] => none
  | plane :: rest =>
    match h : split_faces plane rest with
    | none => none
    | some (in_fronts, behinds) =>
      let oi : Option (Option BSPNode) :=
        if in_fronts.length > 0 then
          (recursive_construction in_fronts).map some
        else some none
      let ob : Option (Option BSPNode) :=
        if behinds.length > 0 then
          (recursive_construction behinds).map some
        else some none
      match oi, ob with
      | some i, some b => some (BSPNode.node plane i b)
      | _, _ => none
termination_by l => l.length
decreasing_by
  all_goals simp_wf
  all_goals
    have hlen := split_faces_length_le _ _ _ _ h
    omega

/-- `binary_space_partionning` in `src/bsp/tree.rs`. -/
def binary_space_partionning (faces : List CubicFace3) : Option BSPNode :=
  recursive_construction faces

/-! Evaluation helpers, used to run the embedded code on concrete
inputs inside proofs. -/

theorem Vector3.norm_eval (v : Vector3) (r : ℝ) (hr : 0 < r)
    (h : r * r = v.x * v.x + v.y * v.y + v.z * v.z) : v.norm = r := by
  rw [Vector3.norm, Real.sqrt_eq_iff_mul_self_eq_of_pos hr]
  exact h

theorem Vector3.normalize_eval (v : Vector3) (r : ℝ) (hr : 0 < r)
    (h : r * r = v.x * v.x + v.y * v.y + v.z * v.z) :
    v.normalize = ⟨v.x / r, v.y / r, v.z / r⟩ := by
  rw [Vector3.normalize, Vector3.norm_eval v r hr h]

theorem Matrix3.linear_solve_eval (m : Matrix3) (b : Vector3)
    (h0 : m.det ≠ 0) :
    m.linear_solve b =
      some
        ⟨(Matrix3.new b.x m.a12 m.a13 b.y m.a22 m.a23 b.z m.a32 m.a33).det
            / m.det,
         (Matrix3.new m.a11 b.x m.a13 m.a21 b.y m.a23 m.a31 b.z m.a33).det
            / m.det,
         (Matrix3.new m.a11 m.a12 b.x m.a21 m.a22 b.y m.a31 m.a32 b.z).det
            / m.det⟩ := by
  rw [Matrix3.linear_solve, if_neg h0]

theorem CubicFace3.line_projection_eval (f : CubicFace3)
    (c direction sol : Vector3)
    (hsolve : (f.lp_matrix direction).linear_solve (c - f.points 0) =
      some sol) (hz : sol.z ≥ 0) :
    f.line_projection c direction =
      some (⌊sol.z * direction.norm * 1000⌋₊,
        ProjectionCoordinates.new sol.x sol.y) := by
  rw [CubicFace3.line_projection]
  simp only [hsolve, if_pos hz]

theorem CubicFace3.line_intersection_eval (f : CubicFace3)
    (p1 p2 dir sol : Vector3)
    (hdir : (p1.line_to p2).normalize = dir)
    (hsolve : (f.lp_matrix dir).linear_solve (p1 - f.points 0) = some sol)
    (hz : sol.z ≥ 0) :
    f.line_intersection p1 p2 =
      some (f.points 0 + (f.points 1 - f.points 0) * sol.x
        + (f.points 3 - f.points 0) * sol.y) := by
  rw [CubicFace3.line_intersection]
  simp only [hdir, CubicFace3.line_projection_eval f p1 dir sol hsolve hz,
    ProjectionCoordinates.new]

/-! Concrete scene elements used to exercise the embedded code: a
vertical splitting plane sitting at `x = 1` (normal pointing towards
positive x), a parallelogram face crossing it, the two fragments the
splitter produces for it, a non-parallelogram convex quadrilateral
crossing it, and its two fragments. -/

/-- Splitting plane at `x = 1`, normal `(1,0,0)`; its center is
`(1,0,1)`, so a point is classified in front by the bsp variant exactly
when its x coordinate exceeds 1. -/
def face_ex : CubicFace3 :=
  CubicFace3.new
    ![⟨1, -10, 0⟩, ⟨1, 10, 0⟩, ⟨1, 10, 2⟩, ⟨1, -10, 2⟩] ⟨1, 0, 0⟩ YELLOW

/-- A vertical parallelogram face above the segment from the origin to
`(2,0,0)`, crossing the `x = 1` plane. -/
def vsplit_ex : CubicFace3 :=
  CubicFace3.new
    ![⟨0, 0, 0⟩, ⟨2, 0, 0⟩, ⟨2, 0, 2⟩, ⟨0, 0, 2⟩] ⟨0, -1, 0⟩ YELLOW

/-- The first fragment the splitter produces for `vsplit_ex`. -/
def frag1_ex : CubicFace3 :=
  CubicFace3.new
    ![⟨0, 0, 0⟩, ⟨1, 0, 0⟩, ⟨1, 0, 2⟩, ⟨0, 0, 2⟩] ⟨0, -1, 0⟩ YELLOW

/-- The second fragment the splitter produces for `vsplit_ex`. -/
def frag2_ex : CubicFace3 :=
  CubicFace3.new
    ![⟨1, 0, 0⟩, ⟨2, 0, 0⟩, ⟨2, 0, 2⟩, ⟨1, 0, 2⟩] ⟨0, -1, 0⟩ YELLOW

/-- A convex planar quadrilateral (not a parallelogram) crossing the
`x = 1` plane. -/
def quad_ex : CubicFace3 :=
  CubicFace3.new
    ![⟨0, 0, 0⟩, ⟨2, 0, 0⟩, ⟨4, 1, 0⟩, ⟨0, 4, 0⟩] ⟨0, 0, -1⟩ YELLOW

/-- The first fragment the splitter produces for `quad_ex`. -/
def gfrag1_ex : CubicFace3 :=
  CubicFace3.new
    ![⟨0, 0, 0⟩, ⟨1, 0, 0⟩, ⟨1, 13 / 4, 0⟩, ⟨0, 4, 0⟩] ⟨0, 0, -1⟩ YELLOW

/-- The second fragment the splitter produces for `quad_ex`. -/
def gfrag2_ex : CubicFace3 :=
  CubicFace3.new
    ![⟨1, 0, 0⟩, ⟨2, 0, 0⟩, ⟨4, 1, 0⟩, ⟨1, 13 / 4, 0⟩] ⟨0, 0, -1⟩ YELLOW

theorem face_ex_center : face_ex.center = ⟨1, 0, 1⟩ := by
  simp only [face_ex, CubicFace3.center, CubicFace3.new, Matrix.cons_val_zero,
    Matrix.cons_val_one, Matrix.head_cons, Matrix.cons_val_two,
    Matrix.cons_val_three, Matrix.vecTail, Matrix.vecHead,
    Vector3.add_def, Vector3.div_def]
  norm_num

theorem face_ex_li1 :
    face_ex.line_intersection ⟨0, 0, 0⟩ ⟨2, 0, 0⟩ = some ⟨1, 0, 0⟩ := by
  have hline : (Vector3.line_to ⟨0, 0, 0⟩ ⟨2, 0, 0⟩) = (⟨2, 0, 0⟩ : Vector3) := by
    simp [Vector3.line_to]
  have hdir : (Vector3.line_to ⟨0, 0, 0⟩ ⟨2, 0, 0⟩).normalize = (⟨1, 0, 0⟩ : Vector3) := by
    rw [hline, Vector3.normalize_eval _ 2 (by norm_num) (by norm_num)]
    norm_num
  have hmat : face_ex.lp_matrix ⟨1, 0, 0⟩ = Matrix3.new 0 0 (-1) 20 0 0 0 2 0 := by
    simp [face_ex, CubicFace3.lp_matrix, CubicFace3.new, Vector3.sub_def,
      Matrix3.new, Matrix3.mk.injEq]
    norm_num
  have hrhs : ((⟨0, 0, 0⟩ : Vector3) - face_ex.points 0) = (⟨-1, 10, 0⟩ : Vector3) := by
    norm_num [face_ex, CubicFace3.new, Vector3.sub_def]
  have hsolve : (face_ex.lp_matrix ⟨1, 0, 0⟩).linear_solve
      ((⟨0, 0, 0⟩ : Vector3) - face_ex.points 0) = some ⟨1 / 2, 0, 1⟩ := by
    rw [hmat, hrhs, Matrix3.linear_solve_eval _ _
      (by simp only [Matrix3.det, Matrix3.new]; norm_num)]
    simp only [Matrix3.det, Matrix3.new, Option.some.injEq, Vector3.mk.injEq]
    norm_num
  rw [CubicFace3.line_intersection_eval face_ex _ _ ⟨1, 0, 0⟩ ⟨1 / 2, 0, 1⟩
    hdir hsolve (by norm_num)]
  simp [face_ex, CubicFace3.new, Vector3.sub_def, Vector3.add_def,
    Vector3.mul_def]
  norm_num

theorem face_ex_li2 :
    face_ex.line_intersection ⟨2, 0, 2⟩ ⟨0, 0, 2⟩ = some ⟨1, 0, 2⟩ := by
  have hline : (Vector3.line_to ⟨2, 0, 2⟩ ⟨0, 0, 2⟩) = (⟨-2, 0, 0⟩ : Vector3) := by
    norm_num [Vector3.line_to]
  have hdir : (Vector3.line_to ⟨2, 0, 2⟩ ⟨0, 0, 2⟩).normalize = (⟨-1, 0, 0⟩ : Vector3) := by
    rw [hline, Vector3.normalize_eval _ 2 (by norm_num) (by norm_num)]
    norm_num
  have hmat : face_ex.lp_matrix ⟨-1, 0, 0⟩ = Matrix3.new 0 0 1 20 0 0 0 2 0 := by
    simp [face_ex, CubicFace3.lp_matrix, CubicFace3.new, Vector3.sub_def,
      Matrix3.new, Matrix3.mk.injEq]
    norm_num
  have hrhs : ((⟨2, 0, 2⟩ : Vector3) - face_ex.points 0) = (⟨1, 10, 2⟩ : Vector3) := by
    simp [face_ex, CubicFace3.new, Vector3.sub_def]
    norm_num
  have hsolve : (face_ex.lp_matrix ⟨-1, 0, 0⟩).linear_solve
      ((⟨2, 0, 2⟩ : Vector3) - face_ex.points 0) = some ⟨1 / 2, 1, 1⟩ := by
    rw [hmat, hrhs, Matrix3.linear_solve_eval _ _
      (by simp only [Matrix3.det, Matrix3.new]; norm_num)]
    simp only [Matrix3.det, Matrix3.new, Option.some.injEq, Vector3.mk.injEq]
    norm_num
  rw [CubicFace3.line_intersection_eval face_ex _ _ ⟨-1, 0, 0⟩ ⟨1 / 2, 1, 1⟩
    hdir hsolve (by norm_num)]
  simp [face_ex, CubicFace3.new, Vector3.sub_def, Vector3.add_def,
    Vector3.mul_def]
  norm_num

theorem face_ex_li3 :
    face_ex.line_intersection ⟨4, 1, 0⟩ ⟨0, 4, 0⟩ = some ⟨1, 13 / 4, 0⟩ := by
  have hline : (Vector3.line_to ⟨4, 1, 0⟩ ⟨0, 4, 0⟩) = (⟨-4, 3, 0⟩ : Vector3) := by
    simp [Vector3.line_to]
    norm_num
  have hdir : (Vector3.line_to ⟨4, 1, 0⟩ ⟨0, 4, 0⟩).normalize =
      (⟨-4 / 5, 3 / 5, 0⟩ : Vector3) := by
    rw [hline, Vector3.normalize_eval _ 5 (by norm_num) (by norm_num)]
    norm_num
  have hmat : face_ex.lp_matrix ⟨-4 / 5, 3 / 5, 0⟩ =
      Matrix3.new 0 0 (4 / 5) 20 0 (-3 / 5) 0 2 0 := by
    simp [face_ex, CubicFace3.lp_matrix, CubicFace3.new, Vector3.sub_def,
      Matrix3.new, Matrix3.mk.injEq]
    norm_num
  have hrhs : ((⟨4, 1, 0⟩ : Vector3) - face_ex.points 0) = (⟨3, 11, 0⟩ : Vector3) := by
    simp [face_ex, CubicFace3.new, Vector3.sub_def]
    norm_num
  have hsolve : (face_ex.lp_matrix ⟨-4 / 5, 3 / 5, 0⟩).linear_solve
      ((⟨4, 1, 0⟩ : Vector3) - face_ex.points 0) = some ⟨53 / 80, 0, 15 / 4⟩ := by
    rw [hmat, hrhs, Matrix3.linear_solve_eval _ _
      (by simp only [Matrix3.det, Matrix3.new]; norm_num)]
    simp only [Matrix3.det, Matrix3.new, Option.some.injEq, Vector3.mk.injEq]
    norm_num
  rw [CubicFace3.line_intersection_eval face_ex _ _ ⟨-4 / 5, 3 / 5, 0⟩
    ⟨53 / 80, 0, 15 / 4⟩ hdir hsolve (by norm_num)]
  simp [face_ex, CubicFace3.new, Vector3.sub_def, Vector3.add_def,
    Vector3.mul_def]
  norm_num

/-- Against `face_ex`, the bsp classification of a point only depends on
its x coordinate: in front iff `x > 1`. -/
theorem face_ex_pifo (p : Vector3) :
    Bsp.point_in_front_of face_ex p = decide (1 - p.x < 0) := by
  have hdot : (p.line_to face_ex.center).dot face_ex.normal = 1 - p.x := by
    rw [face_ex_center]
    simp [Vector3.line_to, Vector3.dot, face_ex, CubicFace3.new]
  simp only [Bsp.point_in_front_of, hdot]

theorem vsplit_points0 : vsplit_ex.points 0 = ⟨0, 0, 0⟩ := by
  simp [vsplit_ex, CubicFace3.new]

theorem vsplit_points1 : vsplit_ex.points 1 = ⟨2, 0, 0⟩ := by
  simp [vsplit_ex, CubicFace3.new]

theorem vsplit_points2 : vsplit_ex.points 2 = ⟨2, 0, 2⟩ := by
  simp [vsplit_ex, CubicFace3.new]

theorem vsplit_points3 : vsplit_ex.points 3 = ⟨0, 0, 2⟩ := by
  simp [vsplit_ex, CubicFace3.new]

theorem class_000 : Bsp.point_in_front_of face_ex ⟨0, 0, 0⟩ = false := by
  rw [face_ex_pifo]
  exact decide_eq_false (by norm_num)

theorem class_200 : Bsp.point_in_front_of face_ex ⟨2, 0, 0⟩ = true := by
  rw [face_ex_pifo]
  exact decide_eq_true (by norm_num)

theorem class_202 : Bsp.point_in_front_of face_ex ⟨2, 0, 2⟩ = true := by
  rw [face_ex_pifo]
  exact decide_eq_true (by norm_num)

theorem class_002 : Bsp.point_in_front_of face_ex ⟨0, 0, 2⟩ = false := by
  rw [face_ex_pifo]
  exact decide_eq_false (by norm_num)

theorem class_410 : Bsp.point_in_front_of face_ex ⟨4, 1, 0⟩ = true := by
  rw [face_ex_pifo]
  exact decide_eq_true (by norm_num)

theorem class_040 : Bsp.point_in_front_of face_ex ⟨0, 4, 0⟩ = false := by
  rw [face_ex_pifo]
  exact decide_eq_false (by norm_num)

theorem vsplit_count : Bsp.n_in_front vsplit_ex face_ex = 2 := by
  rw [Bsp.n_in_front, show (List.finRange 4) = [0, 1, 2, 3] from rfl]
  simp [List.filter, vsplit_points0, vsplit_points1, vsplit_points2,
    vsplit_points3, class_000, class_200, class_202, class_002]

/-- Running the splitter on the parallelogram `vsplit_ex` against the
plane `face_ex` yields the two expected fragments. -/
theorem split_vsplit :
    Bsp.bsp_polygon_split vsplit_ex face_ex =
      some (some frag1_ex, some frag2_ex) := by
  rw [Bsp.bsp_polygon_split]
  simp only [vsplit_count, vsplit_points0, vsplit_points1, vsplit_points2,
    vsplit_points3, class_000, class_200, face_ex_li1, face_ex_li2]
  simp [frag1_ex, frag2_ex, vsplit_ex, CubicFace3.new]

theorem quad_points0 : quad_ex.points 0 = ⟨0, 0, 0⟩ := by
  simp [quad_ex, CubicFace3.new]

theorem quad_points1 : quad_ex.points 1 = ⟨2, 0, 0⟩ := by
  simp [quad_ex, CubicFace3.new]

theorem quad_points2 : quad_ex.points 2 = ⟨4, 1, 0⟩ := by
  simp [quad_ex, CubicFace3.new]

theorem quad_points3 : quad_ex.points 3 = ⟨0, 4, 0⟩ := by
  simp [quad_ex, CubicFace3.new]

theorem quad_count : Bsp.n_in_front quad_ex face_ex = 2 := by
  rw [Bsp.n_in_front, show (List.finRange 4) = [0, 1, 2, 3] from rfl]
  simp [List.filter, quad_points0, quad_points1, quad_points2, quad_points3,
    class_000, class_200, class_410, class_040]

/-- Running the splitter on the non-parallelogram `quad_ex` against the
plane `face_ex` yields the two expected fragments. -/
theorem split_quad :
    Bsp.bsp_polygon_split quad_ex face_ex =
      some (some gfrag1_ex, some gfrag2_ex) := by
  rw [Bsp.bsp_polygon_split]
  simp only [quad_count, quad_points0, quad_points1, quad_points2,
    quad_points3, class_000, class_200, face_ex_li1, face_ex_li3]
  simp [gfrag1_ex, gfrag2_ex, quad_ex, CubicFace3.new]

/-- Against `face_ex`, the primitives classification of a point is the
opposite of the bsp one: in front iff `x < 1`. -/
theorem face_ex_pifo_prim (p : Vector3) :
    Prim.point_in_front_of face_ex p = decide (1 - p.x > 0) := by
  have hdot : (p.line_to face_ex.center).dot face_ex.normal = 1 - p.x := by
    rw [face_ex_center]
    simp [Vector3.line_to, Vector3.dot, face_ex, CubicFace3.new]
  simp only [Prim.point_in_front_of, hdot]

/-- A face whose four corners all lie strictly on the positive-x side
of `face_ex` (behind, for the primitives sign convention). -/
def prim_behind_ex : CubicFace3 :=
  CubicFace3.new
    ![⟨2, 0, 0⟩, ⟨3, 0, 0⟩, ⟨3, 0, 2⟩, ⟨2, 0, 2⟩] ⟨0, -1, 0⟩ YELLOW

/-- A face whose four corners all lie strictly on the negative-x side
of `face_ex` (in front, for the primitives sign convention). -/
def prim_front_ex : CubicFace3 :=
  CubicFace3.new
    ![⟨-1, 0, 0⟩, ⟨0, 0, 0⟩, ⟨0, 0, 2⟩, ⟨-1, 0, 2⟩] ⟨0, -1, 0⟩ YELLOW

theorem prim_behind_count : Prim.n_in_front prim_behind_ex face_ex = 0 := by
  rw [Prim.n_in_front, show (List.finRange 4) = [0, 1, 2, 3] from rfl]
  have h0 : prim_behind_ex.points 0 = ⟨2, 0, 0⟩ := by
    simp [prim_behind_ex, CubicFace3.new]
  have h1 : prim_behind_ex.points 1 = ⟨3, 0, 0⟩ := by
    simp [prim_behind_ex, CubicFace3.new]
  have h2 : prim_behind_ex.points 2 = ⟨3, 0, 2⟩ := by
    simp [prim_behind_ex, CubicFace3.new]
  have h3 : prim_behind_ex.points 3 = ⟨2, 0, 2⟩ := by
    simp [prim_behind_ex, CubicFace3.new]
  simp [List.filter, h0, h1, h2, h3, face_ex_pifo_prim,
    decide_eq_false (show ¬((1 : ℝ) - 2 > 0) by norm_num),
    decide_eq_false (show ¬((1 : ℝ) - 3 > 0) by norm_num)]

theorem prim_front_count : Prim.n_in_front prim_front_ex face_ex = 4 := by
  rw [Prim.n_in_front, show (List.finRange 4) = [0, 1, 2, 3] from rfl]
  have h0 : prim_front_ex.points 0 = ⟨-1, 0, 0⟩ := by
    simp [prim_front_ex, CubicFace3.new]
  have h1 : prim_front_ex.points 1 = ⟨0, 0, 0⟩ := by
    simp [prim_front_ex, CubicFace3.new]
  have h2 : prim_front_ex.points 2 = ⟨0, 0, 2⟩ := by
    simp [prim_front_ex, CubicFace3.new]
  have h3 : prim_front_ex.points 3 = ⟨-1, 0, 2⟩ := by
    simp [prim_front_ex, CubicFace3.new]
  simp [List.filter, h0, h1, h2, h3, face_ex_pifo_prim,
    decide_eq_true (show (1 : ℝ) - -1 > 0 by norm_num),
    decide_eq_true (show (1 : ℝ) - 0 > 0 by norm_num)]

/-! Claim theorems. -/

/-- C1 (counterexample): for the `src/bsp/cubic_face_split.rs` variant
the claimed characterisation fails at the plane `face_ex` and the point
`(2,0,0)`: the function returns `true` although the dot product of the
point-to-center vector with the plane normal is negative, not
positive. -/
theorem c1_counterexample :
    Bsp.point_in_front_of face_ex ⟨2, 0, 0⟩ = true ∧
      ¬((Vector3.line_to ⟨2, 0, 0⟩ face_ex.center).dot face_ex.normal > 0) := by
  refine ⟨class_200, ?_⟩
  rw [face_ex_center]
  simp [Vector3.line_to, Vector3.dot, face_ex, CubicFace3.new]

/-- C1 (amended): the two `point_in_front_of` variants use opposite
sign conventions.  The `src/primitives/cubic_face_split.rs` variant
returns true iff the dot product of the point-to-center vector with the
plane normal is strictly positive, as the claim states; the
`src/bsp/cubic_face_split.rs` variant (the one used by the BSP tree)
returns true iff that dot product is strictly negative. -/
theorem c1_theorem (face : CubicFace3) (p : Vector3) :
    (Bsp.point_in_front_of face p = true ↔
      (p.line_to face.center).dot face.normal < 0) ∧
    (Prim.point_in_front_of face p = true ↔
      (p.line_to face.center).dot face.normal > 0) := by
  constructor
  · simp [Bsp.point_in_front_of]
  · simp [Prim.point_in_front_of]

/-- C4 (evaluation at the failing input): the
`src/primitives/cubic_face_split.rs` variant of `bsp_polygon_split`
returns a clone of the splitting plane `face`, not of the input
`to_split`, in both the all-behind and the all-in-front cases.  The
returned face differs from the input face (already at corner 0). -/
theorem c4_theorem :
    Prim.bsp_polygon_split prim_behind_ex face_ex =
      some (none, some face_ex) ∧
    Prim.bsp_polygon_split prim_front_ex face_ex =
      some (some face_ex, none) ∧
    face_ex.points 0 ≠ prim_behind_ex.points 0 ∧
    face_ex.points 0 ≠ prim_front_ex.points 0 := by
  refine ⟨?_, ?_, ?_, ?_⟩
  · rw [Prim.bsp_polygon_split]
    simp only [prim_behind_count]
  · rw [Prim.bsp_polygon_split]
    simp only [prim_front_count]
  · intro h
    have hx := congrArg Vector3.x h
    simp only [face_ex, prim_behind_ex, CubicFace3.new] at hx
    norm_num at hx
  · intro h
    have hx := congrArg Vector3.x h
    simp only [face_ex, prim_front_ex, CubicFace3.new] at hx
    norm_num at hx

/-- Projection of the point `(1, 10, 0)` through the default camera
(position at the origin, no rotation, `f = 100`, principal point
`(240, 160)`). -/
theorem cam_default_proj :
    Camera.default.project ⟨1, 10, 0⟩ = ⟨1240, 160, true⟩ := by
  have hP : (Camera.default.get_transform_world_to_cam).apply ⟨1, 10, 0⟩ =
      (⟨1, 10, 0⟩ : Vector3) := by
    simp [Camera.get_transform_world_to_cam, Camera.default, Vector3.empty,
      Vector3.opposite, Matrix3.z_rotation, Transform.apply,
      Matrix3.mul_vec_def, Vector3.add_def]
  rw [Camera.project]
  simp only [hP]
  simp only [Camera.default, Point2.new_with_direction]
  rw [show |(1 : ℝ)| = 1 from abs_of_pos (by norm_num)]
  norm_num [WIDTH, HEIGHT, Point2.mk.injEq]

/-- C7: `Camera::is_point_visible` accepts the point `(1, 10, 0)` even
though its projected horizontal pixel coordinate is 1240, far outside
the frame width of 480: the frame-bounds test in the source is a
disjunction (`>= 0 ||  < bound`) instead of a conjunction, so it never
rejects anything (and it also compares the horizontal coordinate
against the frame height).  The claim describes the evident intent;
the code is the slip. -/
theorem c7_theorem :
    Camera.is_point_visible Camera.default ⟨1, 10, 0⟩ = true ∧
    (Camera.default.project ⟨1, 10, 0⟩).x = 1240 ∧
    ¬((Camera.default.project ⟨1, 10, 0⟩).x < (WIDTH : ℝ)) ∧
    (Camera.default.project ⟨1, 10, 0⟩).in_front = true := by
  refine ⟨?_, ?_, ?_, ?_⟩
  · rw [Camera.is_point_visible]
    simp only [cam_default_proj]
    simp [decide_eq_true (show (1240 : ℝ) ≥ 0 by norm_num),
      decide_eq_true (show (160 : ℝ) ≥ 0 by norm_num)]
  · rw [cam_default_proj]
  · rw [cam_default_proj]
    norm_num [WIDTH]
  · rw [cam_default_proj]

/-- C6: each face of a node's to-process list contributes at most one
fragment to the `in_fronts` list and at most one to the `behinds` list,
so both recursion lists are no longer than the list of non-pivot faces,
and strictly shorter than the node's own to-process list (the pivot is
consumed). -/
theorem c6_theorem (plane : CubicFace3) (l fr bh : List CubicFace3)
    (h : split_faces plane l = some (fr, bh)) :
    fr.length ≤ l.length ∧ bh.length ≤ l.length ∧
    fr.length < (plane :: l).length ∧ bh.length < (plane :: l).length := by
  have hle := split_faces_length_le plane l fr bh h
  refine ⟨hle.1, hle.2, ?_, ?_⟩ <;> simp only [List.length_cons] <;> omega

/-- Evaluation of `split_faces` on a single straddling face. -/
theorem split_faces_vsplit :
    split_faces face_ex [vsplit_ex] = some ([frag1_ex], [frag2_ex]) := by
  rw [split_faces]
  simp only [split_vsplit, split_faces]

/-- C6 (witness): the length bound at a concrete one-face list. -/
theorem c6_witness :
    split_faces face_ex [vsplit_ex] = some ([frag1_ex], [frag2_ex]) ∧
    ([frag1_ex].length ≤ [vsplit_ex].length ∧
      [frag2_ex].length ≤ [vsplit_ex].length ∧
      [frag1_ex].length < (face_ex :: [vsplit_ex]).length ∧
      [frag2_ex].length < (face_ex :: [vsplit_ex]).length) :=
  ⟨split_faces_vsplit,
    c6_theorem face_ex [vsplit_ex] [frag1_ex] [frag2_ex] split_faces_vsplit⟩

/-- A face with exactly one corner on the in-front side of `face_ex`:
an unsupported configuration for the splitter, which panics on it. -/
def tri_ex : CubicFace3 :=
  CubicFace3.new
    ![⟨0, 0, 0⟩, ⟨0, 1, 0⟩, ⟨0, 1, 1⟩, ⟨2, 0, 0⟩] ⟨0, -1, 0⟩ YELLOW

theorem class_010 : Bsp.point_in_front_of face_ex ⟨0, 1, 0⟩ = false := by
  rw [face_ex_pifo]
  exact decide_eq_false (by norm_num)

theorem class_011 : Bsp.point_in_front_of face_ex ⟨0, 1, 1⟩ = false := by
  rw [face_ex_pifo]
  exact decide_eq_false (by norm_num)

theorem tri_count : Bsp.n_in_front tri_ex face_ex = 1 := by
  rw [Bsp.n_in_front, show (List.finRange 4) = [0, 1, 2, 3] from rfl]
  have h0 : tri_ex.points 0 = ⟨0, 0, 0⟩ := by simp [tri_ex, CubicFace3.new]
  have h1 : tri_ex.points 1 = ⟨0, 1, 0⟩ := by simp [tri_ex, CubicFace3.new]
  have h2 : tri_ex.points 2 = ⟨0, 1, 1⟩ := by simp [tri_ex, CubicFace3.new]
  have h3 : tri_ex.points 3 = ⟨2, 0, 0⟩ := by simp [tri_ex, CubicFace3.new]
  simp [List.filter, h0, h1, h2, h3, class_000, class_010, class_011,
    class_200]

theorem split_tri : Bsp.bsp_polygon_split tri_ex face_ex = none := by
  rw [Bsp.bsp_polygon_split]
  simp only [tri_count]

/-- C10 (counterexample): on the non-empty list `[face_ex, tri_ex]`
the construction does not return a root node at all: the second face
has exactly one corner in front of the first face's plane, the split
panics, and the panic propagates out of `binary_space_partionning`. -/
theorem c10_counterexample :
    binary_space_partionning [face_ex, tri_ex] = none ∧
    [face_ex, tri_ex] ≠ ([] : List CubicFace3) := by
  constructor
  · have hsf : split_faces face_ex [tri_ex] = none := by
      rw [split_faces]
      simp only [split_tri]
    rw [binary_space_partionning, recursive_construction]
    split
    · rfl
    · rename_i fr bh heq
      rw [hsf] at heq
      exact absurd heq (by simp)
  · simp

/-- C10 (amended): called on the empty list the construction panics
(out-of-bounds indexing of `to_process`, modelled by `none`); whenever
it completes on a non-empty list — that is, whenever no polygon split
panics — the returned root's splitting plane is the first face of the
input list. -/
theorem c10_theorem :
    binary_space_partionning ([] : List CubicFace3) = none ∧
    ∀ (plane : CubicFace3) (rest : List CubicFace3) (t : BSPNode),
      binary_space_partionning (plane :: rest) = some t →
      t.get_plane = plane := by
  constructor
  · rw [binary_space_partionning, recursive_construction]
  · intro plane rest t h
    rw [binary_space_partionning, recursive_construction] at h
    split at h
    · exact absurd h (by simp)
    · rename_i in_fronts behinds heq
      rcases hoi : (if in_fronts.length > 0
          then Option.map some (recursive_construction in_fronts)
          else some none) with _ | i
      · simp only [hoi] at h
        exact absurd h (by simp)
      · rcases hob : (if behinds.length > 0
            then Option.map some (recursive_construction behinds)
            else some none) with _ | b
        · simp only [hoi, hob] at h
          exact absurd h (by simp)
        · simp only [hoi, hob, Option.some.injEq] at h
          rw [← h]
          rfl

/-- Evaluation of the construction on a singleton list. -/
theorem bsp_single_eval :
    binary_space_partionning [face_ex] =
      some (BSPNode.node face_ex none none) := by
  have hsf : split_faces face_ex [] = some ([], []) := by rw [split_faces]
  rw [binary_space_partionning, recursive_construction]
  split
  · rename_i heq
    rw [hsf] at heq
    exact absurd heq (by simp)
  · rename_i fr bh heq
    rw [hsf] at heq
    simp only [Option.some.injEq, Prod.mk.injEq] at heq
    obtain ⟨h1, h2⟩ := heq
    subst h1
    subst h2
    simp

/-- C10 (witness): at the singleton list `[face_ex]` the construction
succeeds and the root's plane is the head of the list. -/
theorem c10_witness :
    binary_space_partionning [face_ex] =
      some (BSPNode.node face_ex none none) ∧
    (BSPNode.node face_ex none none).get_plane = face_ex :=
  ⟨bsp_single_eval, c10_theorem.2 face_ex [] _ bsp_single_eval⟩

/-- The in-front count over the four corners, written as a sum of
indicator terms. -/
theorem n_in_front_as_sum (to_split face : CubicFace3) :
    Bsp.n_in_front to_split face =
      (if Bsp.point_in_front_of face (to_split.points 0) then 1 else 0) +
      (if Bsp.point_in_front_of face (to_split.points 1) then 1 else 0) +
      (if Bsp.point_in_front_of face (to_split.points 2) then 1 else 0) +
      (if Bsp.point_in_front_of face (to_split.points 3) then 1 else 0) := by
  rw [Bsp.n_in_front, show (List.finRange 4) = [0, 1, 2, 3] from rfl]
  cases hb0 : Bsp.point_in_front_of face (to_split.points 0) <;>
  cases hb1 : Bsp.point_in_front_of face (to_split.points 1) <;>
  cases hb2 : Bsp.point_in_front_of face (to_split.points 2) <;>
  cases hb3 : Bsp.point_in_front_of face (to_split.points 3) <;>
    simp [List.filter, hb0, hb1, hb2, hb3]

/-- When exactly 2 of 4 boolean classifications are true, the corners
group into two adjacent blocks whenever the pattern is not
alternating. -/
theorem count2_blocks (b0 b1 b2 b3 : Bool)
    (hcount : ((if b0 then 1 else 0) + (if b1 then 1 else 0) +
      (if b2 then 1 else 0) + (if b3 then 1 else 0) : ℕ) = 2) :
    (b0 ≠ b1 → b3 = b0 → b2 = b1) ∧
    (b0 ≠ b1 → b2 ≠ b3) ∧
    (b0 = b1 → b2 = !b0 ∧ b3 = !b0) := by
  cases b0 <;> cases b1 <;> cases b2 <;> cases b3 <;> simp_all

/-- C2 (counterexample): splitting `vsplit_ex` (whose corner 0 is
classified behind) against `face_ex`, the FIRST returned fragment
contains the behind-classified corner `(0,0,0)`, which is neither an
in-front corner nor one of the two intersection points `(1,0,0)` and
`(1,0,2)` — so the first fragment does not consist of the in-front
corners plus the intersection points as the claim states. -/
theorem c2_counterexample :
    Bsp.bsp_polygon_split vsplit_ex face_ex =
      some (some frag1_ex, some frag2_ex) ∧
    Bsp.n_in_front vsplit_ex face_ex = 2 ∧
    frag1_ex.points 0 = ⟨0, 0, 0⟩ ∧
    Bsp.point_in_front_of face_ex ⟨0, 0, 0⟩ = false ∧
    (⟨0, 0, 0⟩ : Vector3) ≠ ⟨1, 0, 0⟩ ∧
    (⟨0, 0, 0⟩ : Vector3) ≠ ⟨1, 0, 2⟩ := by
  refine ⟨split_vsplit, vsplit_count, by simp [frag1_ex, CubicFace3.new],
    class_000, ?_, ?_⟩
  · intro h
    have hx := congrArg Vector3.x h
    norm_num at hx
  · intro h
    have hx := congrArg Vector3.x h
    norm_num at hx

/-- C2 (amended): with exactly 2 of the 4 corners classified in front,
the cut edges are (0-1) and (2-3) when corners 0 and 1 differ in
classification and (1-2) and (3-0) otherwise; the splitter returns two
quads preserving the original winding, both inheriting the original
normal and texture; the FIRST returned fragment consists of the corners
classified like corner 0 plus the two intersection points (hence of the
in-front corners exactly when corner 0 is in front), and the second of
the remaining corners plus the same two points. -/
theorem c2_theorem (to_split face : CubicFace3) (x y : Vector3)
    (hcount : Bsp.n_in_front to_split face = 2) :
    (Bsp.point_in_front_of face (to_split.points 0) ≠
        Bsp.point_in_front_of face (to_split.points 1) →
      face.line_intersection (to_split.points 0) (to_split.points 1) =
        some x →
      face.line_intersection (to_split.points 2) (to_split.points 3) =
        some y →
      Bsp.bsp_polygon_split to_split face =
        some
          (some (CubicFace3.new ![to_split.points 0, x, y, to_split.points 3]
            to_split.normal to_split.texture),
           some (CubicFace3.new ![x, to_split.points 1, to_split.points 2, y]
            to_split.normal to_split.texture)) ∧
      (Bsp.point_in_front_of face (to_split.points 3) =
          Bsp.point_in_front_of face (to_split.points 0) →
        Bsp.point_in_front_of face (to_split.points 2) =
          Bsp.point_in_front_of face (to_split.points 1))) ∧
    (Bsp.point_in_front_of face (to_split.points 0) =
        Bsp.point_in_front_of face (to_split.points 1) →
      face.line_intersection (to_split.points 1) (to_split.points 2) =
        some x →
      face.line_intersection (to_split.points 3) (to_split.points 0) =
        some y →
      Bsp.bsp_polygon_split to_split face =
        some
          (some (CubicFace3.new
            ![to_split.points 0, to_split.points 1, x, y]
            to_split.normal to_split.texture),
           some (CubicFace3.new
            ![y, x, to_split.points 2, to_split.points 3]
            to_split.normal to_split.texture)) ∧
      Bsp.point_in_front_of face (to_split.points 2) =
        (!Bsp.point_in_front_of face (to_split.points 0)) ∧
      Bsp.point_in_front_of face (to_split.points 3) =
        (!Bsp.point_in_front_of face (to_split.points 0))) := by
  have hsum := hcount
  rw [n_in_front_as_sum] at hsum
  have hcoh := count2_blocks _ _ _ _ hsum
  constructor
  · intro hne hx hy
    constructor
    · simp only [Bsp.bsp_polygon_split, hcount]
      rw [if_pos hne, hx, hy]
    · exact hcoh.1 hne
  · intro heq hx hy
    refine ⟨?_, hcoh.2.2 heq⟩
    simp only [Bsp.bsp_polygon_split, hcount]
    rw [if_neg (by simp [heq]), hx, hy]

/-- C2 (witness): the amended statement instantiated on the concrete
straddling face `vsplit_ex` against `face_ex`. -/
theorem c2_witness :
    Bsp.n_in_front vsplit_ex face_ex = 2 ∧
    (Bsp.bsp_polygon_split vsplit_ex face_ex =
        some
          (some (CubicFace3.new
            ![vsplit_ex.points 0, ⟨1, 0, 0⟩, ⟨1, 0, 2⟩, vsplit_ex.points 3]
            vsplit_ex.normal vsplit_ex.texture),
           some (CubicFace3.new
            ![⟨1, 0, 0⟩, vsplit_ex.points 1, vsplit_ex.points 2, ⟨1, 0, 2⟩]
            vsplit_ex.normal vsplit_ex.texture)) ∧
      (Bsp.point_in_front_of face_ex (vsplit_ex.points 3) =
          Bsp.point_in_front_of face_ex (vsplit_ex.points 0) →
        Bsp.point_in_front_of face_ex (vsplit_ex.points 2) =
          Bsp.point_in_front_of face_ex (vsplit_ex.points 1))) := by
  refine ⟨vsplit_count,
    (c2_theorem vsplit_ex face_ex ⟨1, 0, 0⟩ ⟨1, 0, 2⟩ vsplit_count).1
      ?_ ?_ ?_⟩
  · rw [vsplit_points0, vsplit_points1, class_000, class_200]
    simp
  · rw [vsplit_points0, vsplit_points1]
    exact face_ex_li1
  · rw [vsplit_points2, vsplit_points3]
    exact face_ex_li2

/-- The Cramer solution returned by `linear_solve` satisfies the linear
system (and is only returned when the determinant is non-zero). -/
theorem Matrix3.linear_solve_spec (m : Matrix3) (b sol : Vector3)
    (h : m.linear_solve b = some sol) : m.det ≠ 0 ∧ m * sol = b := by
  rw [Matrix3.linear_solve] at h
  by_cases hd : m.det = 0
  · rw [if_pos hd] at h
    cases h
  · rw [if_neg hd] at h
    simp only [Option.some.injEq] at h
    refine ⟨hd, ?_⟩
    rw [← h, Matrix3.mul_vec_def]
    obtain ⟨b1, b2, b3⟩ := b
    simp only [Vector3.mk.injEq]
    refine ⟨?_, ?_, ?_⟩ <;>
      · field_simp
        simp only [Matrix3.det, Matrix3.new]
        ring

/-- With a non-zero determinant, any solution of the system is the
Cramer solution: the solve is exact and unique. -/
theorem Matrix3.solution_unique (m : Matrix3) (v b : Vector3)
    (hd : m.det ≠ 0) (h : m * v = b) : m.linear_solve b = some v := by
  rw [Matrix3.linear_solve, if_neg hd]
  obtain ⟨v1, v2, v3⟩ := v
  rw [Matrix3.mul_vec_def] at h
  subst h
  simp only [Option.some.injEq, Vector3.mk.injEq]
  refine ⟨?_, ?_, ?_⟩ <;>
    · field_simp
      simp only [Matrix3.det, Matrix3.new]
      ring

/-- The matrix system assembled by `line_projection` is equivalent to
the affine ray-plane equation `c + t·v = P0 + alpha·a + beta·b`. -/
theorem lp_matrix_system (f : CubicFace3) (v w c : Vector3) :
    f.lp_matrix v * w = c - f.points 0 ↔
      c + v * w.z = f.points 0 + (f.points 1 - f.points 0) * w.x
        + (f.points 3 - f.points 0) * w.y := by
  rw [Matrix3.mul_vec_def, CubicFace3.lp_matrix, Matrix3.new]
  simp only [Vector3.sub_def, Vector3.add_def, Vector3.mul_def,
    Vector3.mk.injEq]
  constructor <;> rintro ⟨h1, h2, h3⟩ <;>
    exact ⟨by linarith, by linarith, by linarith⟩

/-- C8: `line_projection` returns `none` exactly when the 3x3 system is
degenerate (zero determinant) or the solved ray parameter `t` is
negative; otherwise it returns the projection coordinates of the actual
ray-plane solution together with the truncated fixed-point millimeter
distance `⌊t·‖v‖·1000⌋`. -/
theorem c8_theorem (f : CubicFace3) (c v : Vector3) :
    (f.line_projection c v = none ↔
      (f.lp_matrix v).det = 0 ∨
      ∀ alpha beta t : ℝ,
        c + v * t = f.points 0 + (f.points 1 - f.points 0) * alpha
          + (f.points 3 - f.points 0) * beta → t < 0) ∧
    (∀ (d : ℕ) (pc : ProjectionCoordinates),
      f.line_projection c v = some (d, pc) →
      ∃ t : ℝ, 0 ≤ t ∧
        c + v * t = f.points 0 + (f.points 1 - f.points 0) * pc.alpha
          + (f.points 3 - f.points 0) * pc.beta ∧
        d = ⌊t * v.norm * 1000⌋₊) := by
  constructor
  · constructor
    · intro hnone
      simp only [CubicFace3.line_projection] at hnone
      rcases hs : (f.lp_matrix v).linear_solve (c - f.points 0) with _ | sol
      · left
        by_contra hd
        rw [Matrix3.linear_solve, if_neg hd] at hs
        cases hs
      · right
        simp only [hs] at hnone
        have hz : ¬sol.z ≥ 0 := by
          intro hz
          rw [if_pos hz] at hnone
          cases hnone
        intro alpha beta t heq
        have hd : (f.lp_matrix v).det ≠ 0 :=
          (Matrix3.linear_solve_spec _ _ _ hs).1
        have huniq := Matrix3.solution_unique (f.lp_matrix v)
          ⟨alpha, beta, t⟩ (c - f.points 0) hd
          ((lp_matrix_system f v ⟨alpha, beta, t⟩ c).mpr heq)
        rw [hs] at huniq
        simp only [Option.some.injEq] at huniq
        have ht : sol.z = t := by rw [huniq]
        rw [← ht]
        linarith
    · intro h
      rcases h with hd | hall
      · simp only [CubicFace3.line_projection]
        rw [Matrix3.linear_solve, if_pos hd]
      · simp only [CubicFace3.line_projection]
        rcases hs : (f.lp_matrix v).linear_solve (c - f.points 0) with _ | sol
        · simp only [hs]
        · simp only [hs]
          have hspec := Matrix3.linear_solve_spec _ _ _ hs
          have heq := (lp_matrix_system f v sol c).mp hspec.2
          have hneg := hall sol.x sol.y sol.z heq
          rw [if_neg (by linarith)]
  · intro d pc hsome
    simp only [CubicFace3.line_projection] at hsome
    rcases hs : (f.lp_matrix v).linear_solve (c - f.points 0) with _ | sol
    · simp only [hs] at hsome
      exact absurd hsome (by simp)
    · simp only [hs] at hsome
      by_cases hz : sol.z ≥ 0
      · rw [if_pos hz] at hsome
        simp only [Option.some.injEq, Prod.mk.injEq] at hsome
        obtain ⟨hd, hpc⟩ := hsome
        have hspec := Matrix3.linear_solve_spec _ _ _ hs
        have heq := (lp_matrix_system f v sol c).mp hspec.2
        refine ⟨sol.z, hz, ?_, ?_⟩
        · rw [← hpc]
          exact heq
        · rw [← hd]
      · rw [if_neg hz] at hsome
        cases hsome

/-- Evaluation of `line_projection` at the origin ray hitting `face_ex`
one unit away: distance 1000 millimeters, coordinates `(1/2, 0)`. -/
theorem face_ex_lp_eval :
    face_ex.line_projection ⟨0, 0, 0⟩ ⟨1, 0, 0⟩ =
      some (1000, ProjectionCoordinates.new (1 / 2) 0) := by
  have hsolve : (face_ex.lp_matrix ⟨1, 0, 0⟩).linear_solve
      ((⟨0, 0, 0⟩ : Vector3) - face_ex.points 0) = some ⟨1 / 2, 0, 1⟩ := by
    have hmat : face_ex.lp_matrix ⟨1, 0, 0⟩ =
        Matrix3.new 0 0 (-1) 20 0 0 0 2 0 := by
      simp [face_ex, CubicFace3.lp_matrix, CubicFace3.new, Vector3.sub_def,
        Matrix3.new, Matrix3.mk.injEq]
      norm_num
    have hrhs : ((⟨0, 0, 0⟩ : Vector3) - face_ex.points 0) =
        (⟨-1, 10, 0⟩ : Vector3) := by
      norm_num [face_ex, CubicFace3.new, Vector3.sub_def]
    rw [hmat, hrhs, Matrix3.linear_solve_eval _ _
      (by simp only [Matrix3.det, Matrix3.new]; norm_num)]
    simp only [Matrix3.det, Matrix3.new, Option.some.injEq, Vector3.mk.injEq]
    norm_num
  rw [CubicFace3.line_projection_eval face_ex _ _ ⟨1 / 2, 0, 1⟩ hsolve
    (by norm_num)]
  have hnorm : (⟨1, 0, 0⟩ : Vector3).norm = 1 :=
    Vector3.norm_eval _ 1 (by norm_num) (by norm_num)
  rw [hnorm]
  norm_num

/-- C8 (witness): the characterisation instantiated on the concrete
ray from the origin in direction `(1,0,0)` against `face_ex`. -/
theorem c8_witness :
    face_ex.line_projection ⟨0, 0, 0⟩ ⟨1, 0, 0⟩ =
      some (1000, ProjectionCoordinates.new (1 / 2) 0) ∧
    ∃ t : ℝ, 0 ≤ t ∧
      (⟨0, 0, 0⟩ : Vector3) + (⟨1, 0, 0⟩ : Vector3) * t =
        face_ex.points 0
          + (face_ex.points 1 - face_ex.points 0)
            * (ProjectionCoordinates.new (1 / 2) 0).alpha
          + (face_ex.points 3 - face_ex.points 0)
            * (ProjectionCoordinates.new (1 / 2) 0).beta ∧
      1000 = ⌊t * Vector3.norm ⟨1, 0, 0⟩ * 1000⌋₊ :=
  ⟨face_ex_lp_eval,
    (c8_theorem face_ex ⟨0, 0, 0⟩ ⟨1, 0, 0⟩).2 1000 _ face_ex_lp_eval⟩

/-- The camera-to-world rotation undoes the world-to-camera rotation. -/
theorem z_rotation_inverse (t : ℝ) (w : Vector3) :
    Matrix3.z_rotation (-t) * (Matrix3.z_rotation t * w) = w := by
  obtain ⟨wx, wy, wz⟩ := w
  have hpyth := Real.sin_sq_add_cos_sq t
  simp only [Matrix3.z_rotation, Matrix3.mul_vec_def, Real.cos_neg,
    Real.sin_neg, Vector3.mk.injEq]
  refine ⟨?_, ?_, ?_⟩
  · linear_combination wx * hpyth
  · linear_combination wy * hpyth
  · ring

/-- Matrix-vector multiplication commutes with scalar scaling. -/
theorem Matrix3.mul_vec_scale (m : Matrix3) (w : Vector3) (s : ℝ) :
    m * (w * s) = (m * w) * s := by
  simp only [Matrix3.mul_vec_def, Vector3.mul_def, Vector3.mk.injEq]
  refine ⟨by ring, by ring, by ring⟩

/-- C9 (amended): for a camera with positive focal length and a point
whose camera-frame forward coordinate is strictly positive, whenever the
pixel coordinates produced by `project` are exact integers (the
arguments of `ray_direction` are `i16` pixels), `ray_direction` applied
to them returns a world-frame vector positively proportional to the
vector from the camera position to the point. -/
theorem c9_theorem (cam : Camera) (p : Vector3) (u v : ℤ)
    (hf : 0 < cam.f)
    (hx : 0 < ((cam.get_transform_world_to_cam).apply p).x)
    (hu : (cam.project p).x = ((u : ℤ) : ℝ))
    (hv : (cam.project p).y = ((v : ℤ) : ℝ)) :
    ∃ k : ℝ, 0 < k ∧
      cam.ray_direction u v = (p - cam.pose.pos) * k := by
  have hw : p + cam.pose.pos.opposite = p - cam.pose.pos := by
    simp only [Vector3.opposite, Vector3.add_def, Vector3.sub_def,
      Vector3.mk.injEq]
    refine ⟨by ring, by ring, by ring⟩
  have hpc : (cam.get_transform_world_to_cam).apply p =
      Matrix3.z_rotation cam.pose.rotz * (p - cam.pose.pos) := by
    rw [Transform.apply, Camera.get_transform_world_to_cam, hw]
  have hproj : cam.project p = Point2.new_with_direction
      (cam.f * ((cam.get_transform_world_to_cam).apply p).y
        / |((cam.get_transform_world_to_cam).apply p).x| + cam.px)
      (cam.f * ((cam.get_transform_world_to_cam).apply p).z
        / |((cam.get_transform_world_to_cam).apply p).x| + cam.py)
      (decide (((cam.get_transform_world_to_cam).apply p).x > 0)) := rfl
  have habs : |((cam.get_transform_world_to_cam).apply p).x| =
      ((cam.get_transform_world_to_cam).apply p).x := abs_of_pos hx
  have hx0 : ((cam.get_transform_world_to_cam).apply p).x ≠ 0 := ne_of_gt hx
  have hf0 : cam.f ≠ 0 := ne_of_gt hf
  have hu' : ((u : ℤ) : ℝ) - cam.px =
      cam.f * ((cam.get_transform_world_to_cam).apply p).y
        / ((cam.get_transform_world_to_cam).apply p).x := by
    rw [← hu, hproj, Point2.new_with_direction, habs]
    ring
  have hv' : ((v : ℤ) : ℝ) - cam.py =
      cam.f * ((cam.get_transform_world_to_cam).apply p).z
        / ((cam.get_transform_world_to_cam).apply p).x := by
    rw [← hv, hproj, Point2.new_with_direction, habs]
    ring
  have hvec : (⟨1, (((u : ℤ) : ℝ) - cam.px) / cam.f,
        (((v : ℤ) : ℝ) - cam.py) / cam.f⟩ : Vector3) =
      ((cam.get_transform_world_to_cam).apply p)
        * (1 / ((cam.get_transform_world_to_cam).apply p).x) := by
    simp only [Vector3.mul_def, Vector3.mk.injEq, hu', hv']
    refine ⟨by field_simp, by field_simp; ring, by field_simp; ring⟩
  refine ⟨1 / ((cam.get_transform_world_to_cam).apply p).x,
    by positivity, ?_⟩
  rw [Camera.ray_direction, Camera.get_rotation_cam_to_world, hvec, hpc,
    Matrix3.mul_vec_scale, z_rotation_inverse]

/-- Projection of `(3, 1, 0)` through the default camera: a
non-integer pixel coordinate. -/
theorem cam_default_proj3 :
    Camera.default.project ⟨3, 1, 0⟩ = ⟨820 / 3, 160, true⟩ := by
  have hP : (Camera.default.get_transform_world_to_cam).apply ⟨3, 1, 0⟩ =
      (⟨3, 1, 0⟩ : Vector3) := by
    simp [Camera.get_transform_world_to_cam, Camera.default, Vector3.empty,
      Vector3.opposite, Matrix3.z_rotation, Transform.apply,
      Matrix3.mul_vec_def, Vector3.add_def]
  rw [Camera.project]
  simp only [hP]
  simp only [Camera.default, Point2.new_with_direction]
  rw [show |(3 : ℝ)| = 3 from abs_of_pos (by norm_num)]
  norm_num [WIDTH, HEIGHT, Point2.mk.injEq]

/-- The ray through the truncated pixel (273, 160) of the default
camera. -/
theorem ray_dir_eval :
    Camera.default.ray_direction 273 160 = ⟨1, 33 / 100, 0⟩ := by
  rw [Camera.ray_direction, Camera.get_rotation_cam_to_world]
  simp [Camera.default, Matrix3.z_rotation, Matrix3.mul_vec_def, WIDTH,
    HEIGHT]
  norm_num

/-- C9 (counterexample): the point `(3,1,0)` seen by the default camera
projects to the non-integer pixel column 820/3 ≈ 273.33; applying
`ray_direction` to the truncated integer pixel (273, 160) gives a
vector that is not proportional (by any factor) to the camera-to-point
direction, so `ray_direction` is not an exact left inverse of the
projection for every point with positive forward coordinate. -/
theorem c9_counterexample :
    (Camera.default.project ⟨3, 1, 0⟩).x = 820 / 3 ∧
    (⌊(820 : ℝ) / 3⌋ = 273) ∧
    ∀ k : ℝ, Camera.default.ray_direction 273 160 ≠
      ((⟨3, 1, 0⟩ : Vector3) - Camera.default.pose.pos) * k := by
  refine ⟨by rw [cam_default_proj3], ?_, ?_⟩
  · rw [Int.floor_eq_iff]
    norm_num
  · intro k h
    rw [ray_dir_eval] at h
    simp only [Camera.default, Vector3.empty, Vector3.sub_def,
      Vector3.mul_def, Vector3.mk.injEq] at h
    obtain ⟨h1, h2, _⟩ := h
    norm_num at h1 h2
    rw [← h2] at h1
    norm_num at h1

/-- Projection of `(2, 1, 0)` through the default camera: exact integer
pixel coordinates. -/
theorem cam_default_proj2 :
    Camera.default.project ⟨2, 1, 0⟩ = ⟨290, 160, true⟩ := by
  have hP : (Camera.default.get_transform_world_to_cam).apply ⟨2, 1, 0⟩ =
      (⟨2, 1, 0⟩ : Vector3) := by
    simp [Camera.get_transform_world_to_cam, Camera.default, Vector3.empty,
      Vector3.opposite, Matrix3.z_rotation, Transform.apply,
      Matrix3.mul_vec_def, Vector3.add_def]
  rw [Camera.project]
  simp only [hP]
  simp only [Camera.default, Point2.new_with_direction]
  rw [show |(2 : ℝ)| = 2 from abs_of_pos (by norm_num)]
  norm_num [WIDTH, HEIGHT, Point2.mk.injEq]

/-- C9 (witness): the amended statement instantiated on the default
camera and the point `(2,1,0)`, which projects to the exact integer
pixel (290, 160). -/
theorem c9_witness :
    0 < Camera.default.f ∧
    0 < ((Camera.default.get_transform_world_to_cam).apply ⟨2, 1, 0⟩).x ∧
    (Camera.default.project ⟨2, 1, 0⟩).x = ((290 : ℤ) : ℝ) ∧
    (Camera.default.project ⟨2, 1, 0⟩).y = ((160 : ℤ) : ℝ) ∧
    ∃ k : ℝ, 0 < k ∧
      Camera.default.ray_direction 290 160 =
        ((⟨2, 1, 0⟩ : Vector3) - Camera.default.pose.pos) * k := by
  have h1 : 0 < Camera.default.f := by norm_num [Camera.default]
  have hP : (Camera.default.get_transform_world_to_cam).apply ⟨2, 1, 0⟩ =
      (⟨2, 1, 0⟩ : Vector3) := by
    simp [Camera.get_transform_world_to_cam, Camera.default, Vector3.empty,
      Vector3.opposite, Matrix3.z_rotation, Transform.apply,
      Matrix3.mul_vec_def, Vector3.add_def]
  have h2 : 0 < ((Camera.default.get_transform_world_to_cam).apply
      ⟨2, 1, 0⟩).x := by
    rw [hP]
    norm_num
  have h3 : (Camera.default.project ⟨2, 1, 0⟩).x = ((290 : ℤ) : ℝ) := by
    rw [cam_default_proj2]
    norm_num
  have h4 : (Camera.default.project ⟨2, 1, 0⟩).y = ((160 : ℤ) : ℝ) := by
    rw [cam_default_proj2]
    norm_num
  exact ⟨h1, h2, h3, h4,
    c9_theorem Camera.default ⟨2, 1, 0⟩ 290 160 h1 h2 h3 h4⟩

/-- Rendering a node appends its (possibly culled) projected face to
the drawer. -/
theorem render_flat (plane : CubicFace3) (inf beh : Option BSPNode)
    (cam : Camera) (d : List CubicFace2) :
    (BSPNode.node plane inf beh).render cam d =
      d ++ (if plane.is_visible_from cam then [plane.projection cam]
        else []) := by
  rw [BSPNode.render]
  simp only [BSPNode.get_plane]
  by_cases hv : plane.is_visible_from cam
  · rw [if_pos hv, if_pos hv]
  · rw [if_neg hv, if_neg hv, List.append_nil]

/-- The painter traversal only appends to the drawer it is given. -/
theorem painter_append (t : BSPNode) (cam : Camera)
    (acc : List CubicFace2) :
    t.painter_algorithm_traversal cam acc =
      acc ++ t.painter_algorithm_traversal cam [] := by
  match t with
  | BSPNode.node plane inf beh =>
    rw [BSPNode.painter_algorithm_traversal.eq_def,
      BSPNode.painter_algorithm_traversal.eq_def]
    dsimp only
    by_cases hb : Bsp.point_in_front_of plane cam.pose.pos
    · rw [if_pos hb, if_pos hb]
      cases beh with
      | none =>
        cases inf with
        | none =>
          dsimp only
          rw [render_flat, render_flat]
          simp
        | some ti =>
          dsimp only
          rw [render_flat, render_flat,
            painter_append ti cam
              (acc ++ if plane.is_visible_from cam
                then [plane.projection cam] else []),
            painter_append ti cam
              (([] : List CubicFace2) ++ if plane.is_visible_from cam
                then [plane.projection cam] else [])]
          simp [List.append_assoc]
      | some tb =>
        cases inf with
        | none =>
          dsimp only
          rw [painter_append tb cam acc, render_flat, render_flat]
          simp [List.append_assoc]
        | some ti =>
          dsimp only
          rw [painter_append tb cam acc, render_flat, render_flat,
            painter_append ti cam
              ((acc ++ tb.painter_algorithm_traversal cam [])
                ++ if plane.is_visible_from cam
                  then [plane.projection cam] else []),
            painter_append ti cam
              ((tb.painter_algorithm_traversal cam [])
                ++ if plane.is_visible_from cam
                  then [plane.projection cam] else [])]
          simp [List.append_assoc]
    · rw [if_neg hb, if_neg hb]
      cases inf with
      | none =>
        cases beh with
        | none =>
          dsimp only
          rw [render_flat, render_flat]
          simp
        | some tb =>
          dsimp only
          rw [render_flat, render_flat,
            painter_append tb cam
              (acc ++ if plane.is_visible_from cam
                then [plane.projection cam] else []),
            painter_append tb cam
              (([] : List CubicFace2) ++ if plane.is_visible_from cam
                then [plane.projection cam] else [])]
          simp [List.append_assoc]
      | some ti =>
        cases beh with
        | none =>
          dsimp only
          rw [painter_append ti cam acc, render_flat, render_flat]
          simp [List.append_assoc]
        | some tb =>
          dsimp only
          rw [painter_append ti cam acc, render_flat, render_flat,
            painter_append tb cam
              ((acc ++ ti.painter_algorithm_traversal cam [])
                ++ if plane.is_visible_from cam
                  then [plane.projection cam] else []),
            painter_append tb cam
              ((ti.painter_algorithm_traversal cam [])
                ++ if plane.is_visible_from cam
                  then [plane.projection cam] else [])]
          simp [List.append_assoc]
termination_by sizeOf t
decreasing_by all_goals (simp_wf; omega)

/-- C5: the painter traversal emits faces in exactly the claimed
order: camera in front of the node's plane gives behind-subtree, then
the node's own face (only when its 3D visibility test passes), then the
in-front subtree; otherwise in-front subtree, node, behind subtree. -/
theorem c5_theorem (plane : CubicFace3) (inf beh : Option BSPNode)
    (cam : Camera) :
    (BSPNode.node plane inf beh).painter_algorithm_traversal cam [] =
      if Bsp.point_in_front_of plane cam.pose.pos then
        (match beh with
          | some t => t.painter_algorithm_traversal cam []
          | none => ([] : List CubicFace2)) ++
        (if plane.is_visible_from cam then [plane.projection cam]
          else []) ++
        (match inf with
          | some t => t.painter_algorithm_traversal cam []
          | none => [])
      else
        (match inf with
          | some t => t.painter_algorithm_traversal cam []
          | none => ([] : List CubicFace2)) ++
        (if plane.is_visible_from cam then [plane.projection cam]
          else []) ++
        (match beh with
          | some t => t.painter_algorithm_traversal cam []
          | none => []) := by
  rw [BSPNode.painter_algorithm_traversal.eq_def]
  dsimp only
  by_cases hb : Bsp.point_in_front_of plane cam.pose.pos
  · rw [if_pos hb, if_pos hb]
    cases beh with
    | none =>
      cases inf with
      | none =>
        dsimp only
        rw [render_flat]
        simp
      | some ti =>
        dsimp only
        rw [render_flat,
          painter_append ti cam
            (([] : List CubicFace2) ++ if plane.is_visible_from cam
              then [plane.projection cam] else [])]
    | some tb =>
      cases inf with
      | none =>
        dsimp only
        rw [render_flat]
        simp
      | some ti =>
        dsimp only
        rw [render_flat,
          painter_append ti cam
            ((tb.painter_algorithm_traversal cam [])
              ++ if plane.is_visible_from cam
                then [plane.projection cam] else [])]
  · rw [if_neg hb, if_neg hb]
    cases inf with
    | none =>
      cases beh with
      | none =>
        dsimp only
        rw [render_flat]
        simp
      | some tb =>
        dsimp only
        rw [render_flat,
          painter_append tb cam
            (([] : List CubicFace2) ++ if plane.is_visible_from cam
              then [plane.projection cam] else [])]
    | some ti =>
      cases beh with
      | none =>
        dsimp only
        rw [render_flat]
        simp
      | some tb =>
        dsimp only
        rw [render_flat,
          painter_append tb cam
            ((ti.painter_algorithm_traversal cam [])
              ++ if plane.is_visible_from cam
                then [plane.projection cam] else [])]


/-! Helper lemmas for the area-preservation analysis of the splitter. -/

theorem Vector3.norm_pos (v : Vector3)
    (h : ¬(v.x = 0 ∧ v.y = 0 ∧ v.z = 0)) : 0 < v.norm := by
  rw [Vector3.norm, Real.sqrt_pos]
  have h3 : v.x ≠ 0 ∨ v.y ≠ 0 ∨ v.z ≠ 0 := by tauto
  rcases h3 with h3 | h3 | h3 <;>
    nlinarith [mul_self_nonneg v.x, mul_self_nonneg v.y,
      mul_self_nonneg v.z, mul_self_pos.mpr h3]

theorem Vector3.norm_scale (v : Vector3) (s : ℝ) :
    (v * s).norm = |s| * v.norm := by
  simp only [Vector3.norm, Vector3.mul_def]
  rw [show v.x * s * (v.x * s) + v.y * s * (v.y * s) + v.z * s * (v.z * s)
      = s ^ 2 * (v.x * v.x + v.y * v.y + v.z * v.z) by ring,
    Real.sqrt_mul (sq_nonneg s), Real.sqrt_sq_eq_abs]

/-- The classification functional is affine along a line. -/
theorem g_affine (face : CubicFace3) (a d : Vector3) (s : ℝ) :
    (((a + d * s).line_to face.center).dot face.normal) =
      ((a.line_to face.center).dot face.normal) - s * (d.dot face.normal) := by
  simp only [Vector3.line_to, Vector3.add_def, Vector3.mul_def, Vector3.dot]
  ring

/-- Adding the full edge lands on the far endpoint. -/
theorem point_plus_edge (a b : Vector3) : a + (b - a) * (1 : ℝ) = b := by
  obtain ⟨ax, ay, az⟩ := a
  obtain ⟨bx, b2, bz⟩ := b
  simp only [Vector3.add_def, Vector3.sub_def, Vector3.mul_def,
    Vector3.mk.injEq]
  refine ⟨by ring, by ring, by ring⟩

/-- Any point of the form `P0 + alpha·a + beta·b` lies on the zero set
of the classification functional of a planar face whose stored normal is
orthogonal to its edge vectors. -/
theorem plane_membership (face : CubicFace3) (al be : ℝ)
    (hna : face.normal.dot (face.points 1 - face.points 0) = 0)
    (hnb : face.normal.dot (face.points 3 - face.points 0) = 0)
    (u w : ℝ)
    (hpw : face.points 2 - face.points 0 =
      (face.points 1 - face.points 0) * u
        + (face.points 3 - face.points 0) * w) :
    (((face.points 0 + (face.points 1 - face.points 0) * al
        + (face.points 3 - face.points 0) * be).line_to
      face.center).dot face.normal) = 0 := by
  have hx := congrArg Vector3.x hpw
  have hy := congrArg Vector3.y hpw
  have hz := congrArg Vector3.z hpw
  simp only [Vector3.sub_x, Vector3.sub_y, Vector3.sub_z, Vector3.mul_x,
    Vector3.mul_y, Vector3.mul_z, Vector3.add_x, Vector3.add_y,
    Vector3.add_z] at hx hy hz
  simp only [Vector3.dot, Vector3.sub_x, Vector3.sub_y, Vector3.sub_z]
    at hna hnb
  simp only [Vector3.line_to, Vector3.dot, CubicFace3.center,
    Vector3.add_x, Vector3.add_y, Vector3.add_z, Vector3.sub_x,
    Vector3.sub_y, Vector3.sub_z, Vector3.mul_x, Vector3.mul_y,
    Vector3.mul_z, Vector3.div_x, Vector3.div_y, Vector3.div_z]
  linear_combination (1 / 4 - al + u / 4) * hna + (1 / 4 - be + w / 4) * hnb
    + (face.normal.x / 4) * hx + (face.normal.y / 4) * hy
    + (face.normal.z / 4) * hz

/-- A zero of an affine function whose endpoint values have opposite
strict signs lies strictly between the endpoints. -/
theorem s_unit_interval (ga gb s : ℝ) (h : 0 = ga - s * (ga - gb))
    (hsign : (ga < 0 ∧ 0 < gb) ∨ (gb < 0 ∧ 0 < ga)) :
    0 < s ∧ s < 1 := by
  rcases hsign with ⟨h1, h2⟩ | ⟨h1, h2⟩ <;> constructor <;> nlinarith

/-- A successful `line_intersection` returns a point lying both on the
line through the two arguments (at a nonnegative parameter) and in the
plane spanned by the face's base. -/
theorem line_intersection_on_line (face : CubicFace3) (a b x : Vector3)
    (hab : ¬((b.x - a.x = 0) ∧ (b.y - a.y = 0) ∧ (b.z - a.z = 0)))
    (h : face.line_intersection a b = some x) :
    ∃ s al be : ℝ, 0 ≤ s ∧ x = a + (b - a) * s ∧
      x = face.points 0 + (face.points 1 - face.points 0) * al
        + (face.points 3 - face.points 0) * be := by
  have hn : 0 < (a.line_to b).norm := by
    apply Vector3.norm_pos
    simpa only [Vector3.line_to] using hab
  simp only [CubicFace3.line_intersection] at h
  rcases hs : face.line_projection a ((a.line_to b).normalize) with _ | dp
  · simp only [hs] at h
    exact absurd h (by simp)
  · simp only [hs] at h
    obtain ⟨d, pc⟩ := dp
    simp only [Option.some.injEq] at h
    simp only [CubicFace3.line_projection] at hs
    rcases hsol : (face.lp_matrix ((a.line_to b).normalize)).linear_solve
        (a - face.points 0) with _ | sol
    · simp only [hsol] at hs
      exact absurd hs (by simp)
    · simp only [hsol] at hs
      by_cases hz : sol.z ≥ 0
      · rw [if_pos hz] at hs
        simp only [Option.some.injEq, Prod.mk.injEq] at hs
        have hpc : pc = ProjectionCoordinates.new sol.x sol.y := hs.2.symm
        have hMspec := Matrix3.linear_solve_spec _ _ _ hsol
        have hsys := (lp_matrix_system face ((a.line_to b).normalize)
          sol a).mp hMspec.2
        refine ⟨sol.z / (a.line_to b).norm, sol.x, sol.y,
          div_nonneg hz (le_of_lt hn), ?_, ?_⟩
        · rw [← h, hpc]
          rw [ProjectionCoordinates.new]
          rw [← hsys]
          simp only [Vector3.add_def, Vector3.mul_def, Vector3.normalize,
            Vector3.line_to, Vector3.sub_def, Vector3.mk.injEq]
          refine ⟨by ring, by ring, by ring⟩
        · rw [← h, hpc]
          rw [ProjectionCoordinates.new]
      · rw [if_neg hz] at hs
        exact absurd hs (by simp)

/-- Cross product of the first fragment of an AfterFirst split of a
parallelogram. -/
theorem cross_fragment1 (p0 p1 p3 : Vector3) (s : ℝ) :
    (((p0 + (p1 - p0) * s) - p0).cross (p3 - p0)) =
      ((p1 - p0).cross (p3 - p0)) * s := by
  obtain ⟨ax, ay, az⟩ := p0
  obtain ⟨bx, b2, bz⟩ := p1
  obtain ⟨cx, cy, cz⟩ := p3
  simp only [Vector3.add_def, Vector3.sub_def, Vector3.mul_def,
    Vector3.cross, Vector3.mk.injEq]
  refine ⟨by ring, by ring, by ring⟩

/-- Cross product of the second fragment of an AfterFirst split of a
parallelogram (`p2 = p1 + (p3 - p0)`). -/
theorem cross_fragment2 (p0 p1 p3 : Vector3) (s t : ℝ) :
    ((p1 - (p0 + (p1 - p0) * s)).cross
      (((p1 + (p3 - p0)) + ((p3 - (p1 + (p3 - p0))) * t))
        - (p0 + (p1 - p0) * s))) =
      ((p1 - p0).cross (p3 - p0)) * (1 - s) := by
  obtain ⟨ax, ay, az⟩ := p0
  obtain ⟨bx, b2, bz⟩ := p1
  obtain ⟨cx, cy, cz⟩ := p3
  simp only [Vector3.add_def, Vector3.sub_def, Vector3.mul_def,
    Vector3.cross, Vector3.mk.injEq]
  refine ⟨by ring, by ring, by ring⟩

/-- Cross product of the first fragment of an AfterSecond split of a
parallelogram. -/
theorem cross_fragment3 (p0 p1 p3 : Vector3) (t : ℝ) :
    ((p1 - p0).cross ((p3 + (p0 - p3) * t) - p0)) =
      ((p1 - p0).cross (p3 - p0)) * (1 - t) := by
  obtain ⟨ax, ay, az⟩ := p0
  obtain ⟨bx, b2, bz⟩ := p1
  obtain ⟨cx, cy, cz⟩ := p3
  simp only [Vector3.add_def, Vector3.sub_def, Vector3.mul_def,
    Vector3.cross, Vector3.mk.injEq]
  refine ⟨by ring, by ring, by ring⟩

/-- Cross product of the second fragment of an AfterSecond split of a
parallelogram (`p2 = p1 + (p3 - p0)`, first cut on edge 1-2 at
parameter `s`, second cut on edge 3-0 at parameter `t`). -/
theorem cross_fragment4 (p0 p1 p3 : Vector3) (s t : ℝ) :
    ((((p1 + ((p1 + (p3 - p0)) - p1) * s)) - (p3 + (p0 - p3) * t)).cross
      (p3 - (p3 + (p0 - p3) * t))) =
      ((p1 - p0).cross (p3 - p0)) * t := by
  obtain ⟨ax, ay, az⟩ := p0
  obtain ⟨bx, b2, bz⟩ := p1
  obtain ⟨cx, cy, cz⟩ := p3
  simp only [Vector3.add_def, Vector3.sub_def, Vector3.mul_def,
    Vector3.line_to, Vector3.cross, Vector3.mk.injEq]
  refine ⟨by ring, by ring, by ring⟩


/-- Area of a face built from four explicit corners. -/
theorem area_new (a b c d n : Vector3) (tex : Texture) :
    (CubicFace3.new ![a, b, c, d] n tex).area = ((b - a).cross (d - a)).norm := by
  simp [CubicFace3.area, CubicFace3.new]

/-- C3 (amended): for a parallelogram face of positive area split
against a planar face whose stored normal is orthogonal to its edge
vectors, with exactly two corners classified in front and no corner
exactly on the plane, the two fragments' areas (as computed by
`CubicFace3::area`) sum exactly to the original's and each is strictly
smaller. -/
theorem c3_theorem (to_split face f1 f2 : CubicFace3)
    (hpar : to_split.points 2 = to_split.points 1
      + (to_split.points 3 - to_split.points 0))
    (hA : ¬((((to_split.points 1 - to_split.points 0).cross
          (to_split.points 3 - to_split.points 0)).x = 0) ∧
        (((to_split.points 1 - to_split.points 0).cross
          (to_split.points 3 - to_split.points 0)).y = 0) ∧
        (((to_split.points 1 - to_split.points 0).cross
          (to_split.points 3 - to_split.points 0)).z = 0)))
    (hna : face.normal.dot (face.points 1 - face.points 0) = 0)
    (hnb : face.normal.dot (face.points 3 - face.points 0) = 0)
    (hplanar : ∃ u w : ℝ, face.points 2 - face.points 0 =
      (face.points 1 - face.points 0) * u
        + (face.points 3 - face.points 0) * w)
    (hcount : Bsp.n_in_front to_split face = 2)
    (hoff : ∀ i : Fin 4,
      ((to_split.points i).line_to face.center).dot face.normal ≠ 0)
    (hsplit : Bsp.bsp_polygon_split to_split face =
      some (some f1, some f2)) :
    f1.area + f2.area = to_split.area ∧
    f1.area < to_split.area ∧ f2.area < to_split.area := by
  have hsum := hcount
  rw [n_in_front_as_sum] at hsum
  have hcoh := count2_blocks _ _ _ _ hsum
  have hgneg : ∀ i : Fin 4,
      Bsp.point_in_front_of face (to_split.points i) = true →
      ((to_split.points i).line_to face.center).dot face.normal < 0 :=
    fun i hi => by
      have := hi
      simp only [Bsp.point_in_front_of, decide_eq_true_eq] at this
      exact this
  have hgpos : ∀ i : Fin 4,
      Bsp.point_in_front_of face (to_split.points i) = false →
      0 < ((to_split.points i).line_to face.center).dot face.normal :=
    fun i hi => by
      have hnl : ¬(((to_split.points i).line_to face.center).dot
          face.normal < 0) := by
        intro hq
        have : Bsp.point_in_front_of face (to_split.points i) = true := by
          simp only [Bsp.point_in_front_of, decide_eq_true_eq]
          exact hq
        rw [hi] at this
        cases this
      exact lt_of_le_of_ne (not_lt.mp hnl) (Ne.symm (hoff i))
  have hedge : ∀ i j : Fin 4,
      ((to_split.points i).line_to face.center).dot face.normal ≠
        ((to_split.points j).line_to face.center).dot face.normal →
      ¬(((to_split.points j).x - (to_split.points i).x = 0) ∧
        ((to_split.points j).y - (to_split.points i).y = 0) ∧
        ((to_split.points j).z - (to_split.points i).z = 0)) := by
    intro i j hij ⟨h1, h2, h3⟩
    apply hij
    simp only [Vector3.line_to, Vector3.dot]
    linear_combination face.normal.x * h1 + face.normal.y * h2
      + face.normal.z * h3
  have hApos : 0 < to_split.area := by
    rw [CubicFace3.area]
    exact Vector3.norm_pos _ hA
  obtain ⟨u, w, hpw⟩ := hplanar
  simp only [Bsp.bsp_polygon_split, hcount] at hsplit
  by_cases hne : Bsp.point_in_front_of face (to_split.points 0) ≠
      Bsp.point_in_front_of face (to_split.points 1)
  · rw [if_pos hne] at hsplit
    rcases hx : face.line_intersection (to_split.points 0)
        (to_split.points 1) with _ | x
    · simp only [hx] at hsplit
      exact absurd hsplit (by simp)
    · rcases hy : face.line_intersection (to_split.points 2)
          (to_split.points 3) with _ | y
      · simp only [hx, hy] at hsplit
        exact absurd hsplit (by simp)
      · simp only [hx, hy, Option.some.injEq, Prod.mk.injEq] at hsplit
        obtain ⟨hf1, hf2⟩ := hsplit
        have hsign01 : (((to_split.points 0).line_to face.center).dot
              face.normal < 0 ∧
            0 < ((to_split.points 1).line_to face.center).dot
              face.normal) ∨
            (((to_split.points 1).line_to face.center).dot face.normal < 0 ∧
            0 < ((to_split.points 0).line_to face.center).dot
              face.normal) := by
          cases hb0 : Bsp.point_in_front_of face (to_split.points 0) with
          | false =>
            cases hb1 : Bsp.point_in_front_of face (to_split.points 1) with
            | false => rw [hb0, hb1] at hne; exact absurd rfl hne
            | true => exact Or.inr ⟨hgneg 1 hb1, hgpos 0 hb0⟩
          | true =>
            cases hb1 : Bsp.point_in_front_of face (to_split.points 1) with
            | false => exact Or.inl ⟨hgneg 0 hb0, hgpos 1 hb1⟩
            | true => rw [hb0, hb1] at hne; exact absurd rfl hne
        have hne23 : Bsp.point_in_front_of face (to_split.points 2) ≠
            Bsp.point_in_front_of face (to_split.points 3) :=
          hcoh.2.1 hne
        have hsign23 : (((to_split.points 2).line_to face.center).dot
              face.normal < 0 ∧
            0 < ((to_split.points 3).line_to face.center).dot
              face.normal) ∨
            (((to_split.points 3).line_to face.center).dot face.normal < 0 ∧
            0 < ((to_split.points 2).line_to face.center).dot
              face.normal) := by
          cases hb2 : Bsp.point_in_front_of face (to_split.points 2) with
          | false =>
            cases hb3 : Bsp.point_in_front_of face (to_split.points 3) with
            | false => rw [hb2, hb3] at hne23; exact absurd rfl hne23
            | true => exact Or.inr ⟨hgneg 3 hb3, hgpos 2 hb2⟩
          | true =>
            cases hb3 : Bsp.point_in_front_of face (to_split.points 3) with
            | false => exact Or.inl ⟨hgneg 2 hb2, hgpos 3 hb3⟩
            | true => rw [hb2, hb3] at hne23; exact absurd rfl hne23
        have hg01 : ((to_split.points 0).line_to face.center).dot
            face.normal ≠
            ((to_split.points 1).line_to face.center).dot face.normal := by
          rcases hsign01 with ⟨ha, hb⟩ | ⟨ha, hb⟩ <;> intro hq <;> linarith
        have hg23 : ((to_split.points 2).line_to face.center).dot
            face.normal ≠
            ((to_split.points 3).line_to face.center).dot face.normal := by
          rcases hsign23 with ⟨ha, hb⟩ | ⟨ha, hb⟩ <;> intro hq <;> linarith
        obtain ⟨s, alx, bex, hs0, hxline, hxplane⟩ :=
          line_intersection_on_line face (to_split.points 0)
            (to_split.points 1) x (hedge 0 1 hg01) hx
        obtain ⟨t, aly, bey, ht0, hyline, hyplane⟩ :=
          line_intersection_on_line face (to_split.points 2)
            (to_split.points 3) y (hedge 2 3 hg23) hy
        have hgx : ((x.line_to face.center).dot face.normal) = 0 := by
          rw [hxplane]
          exact plane_membership face alx bex hna hnb u w hpw
        have hDg := g_affine face (to_split.points 0)
          (to_split.points 1 - to_split.points 0) 1
        rw [point_plus_edge] at hDg
        have hgs := g_affine face (to_split.points 0)
          (to_split.points 1 - to_split.points 0) s
        rw [← hxline, hgx] at hgs
        have hxs : 0 = ((to_split.points 0).line_to face.center).dot
            face.normal - s *
            (((to_split.points 0).line_to face.center).dot face.normal -
             ((to_split.points 1).line_to face.center).dot face.normal) := by
          have hD : (to_split.points 1 - to_split.points 0).dot
              face.normal =
              ((to_split.points 0).line_to face.center).dot face.normal -
              ((to_split.points 1).line_to face.center).dot face.normal := by
            linarith
          rw [hD] at hgs
          linarith
        have hs01 := s_unit_interval _ _ s hxs hsign01
        have harea1 : f1.area = s * to_split.area := by
          rw [← hf1, area_new, hxline, cross_fragment1, Vector3.norm_scale,
            abs_of_pos hs01.1, CubicFace3.area]
        have harea2 : f2.area = (1 - s) * to_split.area := by
          rw [← hf2, area_new, hxline, hyline, hpar, cross_fragment2,
            Vector3.norm_scale, abs_of_pos (by linarith [hs01.2]),
            CubicFace3.area]
        rw [harea1, harea2]
        refine ⟨by ring, ?_, ?_⟩
        · nlinarith [hApos, hs01.1, hs01.2]
        · nlinarith [hApos, hs01.1, hs01.2]
  · rw [if_neg hne] at hsplit
    push_neg at hne
    rcases hx : face.line_intersection (to_split.points 1)
        (to_split.points 2) with _ | x
    · simp only [hx] at hsplit
      exact absurd hsplit (by simp)
    · rcases hy : face.line_intersection (to_split.points 3)
          (to_split.points 0) with _ | y
      · simp only [hx, hy] at hsplit
        exact absurd hsplit (by simp)
      · simp only [hx, hy, Option.some.injEq, Prod.mk.injEq] at hsplit
        obtain ⟨hf1, hf2⟩ := hsplit
        have hblocks := hcoh.2.2 hne
        have hsign30 : (((to_split.points 3).line_to face.center).dot
              face.normal < 0 ∧
            0 < ((to_split.points 0).line_to face.center).dot
              face.normal) ∨
            (((to_split.points 0).line_to face.center).dot face.normal < 0 ∧
            0 < ((to_split.points 3).line_to face.center).dot
              face.normal) := by
          cases hb0 : Bsp.point_in_front_of face (to_split.points 0) with
          | false =>
            have hb3 : Bsp.point_in_front_of face (to_split.points 3) =
                true := by rw [hblocks.2, hb0]; rfl
            exact Or.inl ⟨hgneg 3 hb3, hgpos 0 hb0⟩
          | true =>
            have hb3 : Bsp.point_in_front_of face (to_split.points 3) =
                false := by rw [hblocks.2, hb0]; rfl
            exact Or.inr ⟨hgneg 0 hb0, hgpos 3 hb3⟩
        have hsign12 : (((to_split.points 1).line_to face.center).dot
              face.normal < 0 ∧
            0 < ((to_split.points 2).line_to face.center).dot
              face.normal) ∨
            (((to_split.points 2).line_to face.center).dot face.normal < 0 ∧
            0 < ((to_split.points 1).line_to face.center).dot
              face.normal) := by
          cases hb0 : Bsp.point_in_front_of face (to_split.points 0) with
          | false =>
            have hb1 : Bsp.point_in_front_of face (to_split.points 1) =
                false := by rw [← hne, hb0]
            have hb2 : Bsp.point_in_front_of face (to_split.points 2) =
                true := by rw [hblocks.1, hb0]; rfl
            exact Or.inr ⟨hgneg 2 hb2, hgpos 1 hb1⟩
          | true =>
            have hb1 : Bsp.point_in_front_of face (to_split.points 1) =
                true := by rw [← hne, hb0]
            have hb2 : Bsp.point_in_front_of face (to_split.points 2) =
                false := by rw [hblocks.1, hb0]; rfl
            exact Or.inl ⟨hgneg 1 hb1, hgpos 2 hb2⟩
        have hg12 : ((to_split.points 1).line_to face.center).dot
            face.normal ≠
            ((to_split.points 2).line_to face.center).dot face.normal := by
          rcases hsign12 with ⟨ha, hb⟩ | ⟨ha, hb⟩ <;> intro hq <;> linarith
        have hg30 : ((to_split.points 3).line_to face.center).dot
            face.normal ≠
            ((to_split.points 0).line_to face.center).dot face.normal := by
          rcases hsign30 with ⟨ha, hb⟩ | ⟨ha, hb⟩ <;> intro hq <;> linarith
        obtain ⟨s, alx, bex, hs0, hxline, hxplane⟩ :=
          line_intersection_on_line face (to_split.points 1)
            (to_split.points 2) x (hedge 1 2 hg12) hx
        obtain ⟨t, aly, bey, ht0, hyline, hyplane⟩ :=
          line_intersection_on_line face (to_split.points 3)
            (to_split.points 0) y (hedge 3 0 hg30) hy
        have hgy : ((y.line_to face.center).dot face.normal) = 0 := by
          rw [hyplane]
          exact plane_membership face aly bey hna hnb u w hpw
        have hDg := g_affine face (to_split.points 3)
          (to_split.points 0 - to_split.points 3) 1
        rw [point_plus_edge] at hDg
        have hgt := g_affine face (to_split.points 3)
          (to_split.points 0 - to_split.points 3) t
        rw [← hyline, hgy] at hgt
        have hts : 0 = ((to_split.points 3).line_to face.center).dot
            face.normal - t *
            (((to_split.points 3).line_to face.center).dot face.normal -
             ((to_split.points 0).line_to face.center).dot face.normal) := by
          have hD : (to_split.points 0 - to_split.points 3).dot
              face.normal =
              ((to_split.points 3).line_to face.center).dot face.normal -
              ((to_split.points 0).line_to face.center).dot face.normal := by
            linarith
          rw [hD] at hgt
          linarith
        have ht01 := s_unit_interval _ _ t hts hsign30
        have harea1 : f1.area = (1 - t) * to_split.area := by
          rw [← hf1, area_new, hyline, cross_fragment3, Vector3.norm_scale,
            abs_of_pos (by linarith [ht01.2]), CubicFace3.area]
        have harea2 : f2.area = t * to_split.area := by
          rw [← hf2, area_new, hxline, hyline, hpar, cross_fragment4,
            Vector3.norm_scale, abs_of_pos ht01.1, CubicFace3.area]
        rw [harea1, harea2]
        refine ⟨by ring, ?_, ?_⟩
        · nlinarith [hApos, ht01.1, ht01.2]
        · nlinarith [hApos, ht01.1, ht01.2]


theorem gfrag1_area : gfrag1_ex.area = 4 := by
  rw [gfrag1_ex, area_new]
  rw [show ((⟨1, 0, 0⟩ - ⟨0, 0, 0⟩ : Vector3).cross
      ((⟨0, 4, 0⟩ : Vector3) - ⟨0, 0, 0⟩)) = (⟨0, 0, 4⟩ : Vector3) by
    norm_num [Vector3.sub_def, Vector3.cross]]
  exact Vector3.norm_eval _ 4 (by norm_num) (by norm_num)

theorem gfrag2_area : gfrag2_ex.area = 13 / 4 := by
  rw [gfrag2_ex, area_new]
  rw [show ((⟨2, 0, 0⟩ - ⟨1, 0, 0⟩ : Vector3).cross
      ((⟨1, 13 / 4, 0⟩ : Vector3) - ⟨1, 0, 0⟩)) = (⟨0, 0, 13 / 4⟩ : Vector3) by
    norm_num [Vector3.sub_def, Vector3.cross]]
  exact Vector3.norm_eval _ (13 / 4) (by norm_num) (by norm_num)

theorem quad_area : quad_ex.area = 8 := by
  rw [quad_ex, area_new]
  rw [show ((⟨2, 0, 0⟩ - ⟨0, 0, 0⟩ : Vector3).cross
      ((⟨0, 4, 0⟩ : Vector3) - ⟨0, 0, 0⟩)) = (⟨0, 0, 8⟩ : Vector3) by
    norm_num [Vector3.sub_def, Vector3.cross]]
  exact Vector3.norm_eval _ 8 (by norm_num) (by norm_num)

/-- C3 (counterexample): the convex (but non-parallelogram) planar
quadrilateral `quad_ex` has exactly two corners in front of `face_ex`
and two behind, yet the two fragments produced by the splitter have
areas 4 and 13/4 while the original face's `area()` is 8: the sum is
not preserved.  (The four positive 2D cross products witness the
convexity of the corner cycle.) -/
theorem c3_counterexample :
    Bsp.bsp_polygon_split quad_ex face_ex =
      some (some gfrag1_ex, some gfrag2_ex) ∧
    Bsp.n_in_front quad_ex face_ex = 2 ∧
    (0 < (quad_ex.points 1 - quad_ex.points 0).x
          * (quad_ex.points 2 - quad_ex.points 1).y
        - (quad_ex.points 1 - quad_ex.points 0).y
          * (quad_ex.points 2 - quad_ex.points 1).x ∧
      0 < (quad_ex.points 2 - quad_ex.points 1).x
          * (quad_ex.points 3 - quad_ex.points 2).y
        - (quad_ex.points 2 - quad_ex.points 1).y
          * (quad_ex.points 3 - quad_ex.points 2).x ∧
      0 < (quad_ex.points 3 - quad_ex.points 2).x
          * (quad_ex.points 0 - quad_ex.points 3).y
        - (quad_ex.points 3 - quad_ex.points 2).y
          * (quad_ex.points 0 - quad_ex.points 3).x ∧
      0 < (quad_ex.points 0 - quad_ex.points 3).x
          * (quad_ex.points 1 - quad_ex.points 0).y
        - (quad_ex.points 0 - quad_ex.points 3).y
          * (quad_ex.points 1 - quad_ex.points 0).x) ∧
    gfrag1_ex.area + gfrag2_ex.area ≠ quad_ex.area ∧
    gfrag1_ex.area < quad_ex.area ∧ gfrag2_ex.area < quad_ex.area := by
  refine ⟨split_quad, quad_count, ?_, ?_, ?_, ?_⟩
  · rw [quad_points0, quad_points1, quad_points2, quad_points3]
    norm_num [Vector3.sub_def]
  · rw [gfrag1_area, gfrag2_area, quad_area]
    norm_num
  · rw [gfrag1_area, quad_area]
    norm_num
  · rw [gfrag2_area, quad_area]
    norm_num

/-- C3 (witness): the amended area-preservation statement instantiated
on the parallelogram `vsplit_ex` split against `face_ex`. -/
theorem c3_witness :
    Bsp.bsp_polygon_split vsplit_ex face_ex =
      some (some frag1_ex, some frag2_ex) ∧
    Bsp.n_in_front vsplit_ex face_ex = 2 ∧
    (frag1_ex.area + frag2_ex.area = vsplit_ex.area ∧
      frag1_ex.area < vsplit_ex.area ∧ frag2_ex.area < vsplit_ex.area) := by
  refine ⟨split_vsplit, vsplit_count,
    c3_theorem vsplit_ex face_ex frag1_ex frag2_ex ?_ ?_ ?_ ?_ ?_
      vsplit_count ?_ split_vsplit⟩
  · rw [vsplit_points2, vsplit_points1, vsplit_points3, vsplit_points0]
    norm_num [Vector3.add_def, Vector3.sub_def]
  · rw [vsplit_points1, vsplit_points0, vsplit_points3]
    norm_num [Vector3.sub_def, Vector3.cross]
  · norm_num [face_ex, CubicFace3.new, Vector3.dot, Vector3.sub_def]
  · norm_num [face_ex, CubicFace3.new, Vector3.dot, Vector3.sub_def]
  · refine ⟨1, 1, ?_⟩
    norm_num [face_ex, CubicFace3.new, Vector3.sub_def, Vector3.mul_def,
      Vector3.add_def]
  · intro i
    fin_cases i
    · show ((vsplit_ex.points 0).line_to face_ex.center).dot
        face_ex.normal ≠ 0
      rw [vsplit_points0, face_ex_center]
      norm_num [Vector3.line_to, Vector3.dot, face_ex, CubicFace3.new]
    · show ((vsplit_ex.points 1).line_to face_ex.center).dot
        face_ex.normal ≠ 0
      rw [vsplit_points1, face_ex_center]
      norm_num [Vector3.line_to, Vector3.dot, face_ex, CubicFace3.new]
    · show ((vsplit_ex.points 2).line_to face_ex.center).dot
        face_ex.normal ≠ 0
      rw [vsplit_points2, face_ex_center]
      norm_num [Vector3.line_to, Vector3.dot, face_ex, CubicFace3.new]
    · show ((vsplit_ex.points 3).line_to face_ex.center).dot
        face_ex.normal ≠ 0
      rw [vsplit_points3, face_ex_center]
      norm_num [Vector3.line_to, Vector3.dot, face_ex, CubicFace3.new]

end GameEngine